import Mathlib

set_option maxRecDepth 10000
set_option maxHeartbeats 2000000

/-!
Verification development for the state-estimation core of the `kalman`
browser demonstration: the fixed-size matrix kernel (`MatrixUtils`), the
constant-acceleration 2D Kalman filter (`KalmanFilter2D`), the two-model
IMM combiner (`IMMFilter`), the simulation pipeline driving
bootstrapping, predict/update cadence and chi-square coverage counting
(`simTick`/`simRun`), and the string-keyed filter registry.

Matrices are modelled as the source stores them: JavaScript arrays of
arrays, here `List (List ℚ)`, with the kernel operations translated
loop-for-loop and out-of-range reads mapped to `getD` defaults (such
reads do not occur on the shapes the estimation core builds).  Numbers
are exact rationals.  The one place where IEEE-754 behaviour is itself
the subject of a claim — division by a zero determinant producing
`Infinity`/`NaN` instead of an error, and the `Number.isFinite` guard
built on it in the coverage test — is modelled by the small `JsVal`
type, which adjoins `inf`, `ninf` and `nan` to `ℚ` with the JavaScript
rules for division, multiplication and addition of those values.  The
IMM model likelihood uses `Math.exp` and `Math.sqrt`; its exact-real
counterpart is `likelihoodR : … → ℝ`, and the computable IMM update
takes the two likelihood values as explicit arguments, connected to
`likelihoodR` by the predicate `IsLikelihoodOf`.
-/

namespace KalmanSpec

/-- A JavaScript array-of-arrays matrix of rationals; column vectors are
`n × 1` matrices, exactly as the source stores them. -/
abbrev Mat := List (List ℚ)

/-- Entry `A[i][j]`, with out-of-range reads defaulting to `0` (the
estimation core never reads out of range on the shapes it builds). -/
def ent (A : Mat) (i j : ℕ) : ℚ := (A.getD i []).getD j 0

/-- The `1e-12` floor used by the IMM mixing and probability update. -/
def eps12 : ℚ := 1/10^12

/-- The chi-square 95% threshold for 2 degrees of freedom, `5.991`. -/
def chi95 : ℚ := 5991/1000

/-- The indexed map `l.map((v, i) => f i v)` of the JavaScript array
methods, written as a structural recursion (`zipWith` against the index
range). -/
def mapIdxQ {α β : Type} (f : ℕ → α → β) (l : List α) : List β :=
  List.zipWith f (List.range l.length) l

namespace MatrixUtils

/-- MatrixUtils.multiply: `C[i][j] = Σ_{k<n} A[i][k]·B[k][j]` with
`m = A.length`, `n = A[0].length`, `p = B[0].length`. -/
def multiply (A B : Mat) : Mat :=
  let n := (A.headD []).length
  let p := (B.headD []).length
  A.map fun Ai =>
    (List.range p).map fun j =>
      ((List.range n).map fun k => Ai.getD k 0 * ent B k j).sum

/-- MatrixUtils.transpose: `A[0].map((_, i) => A.map(row => row[i]))`. -/
def transpose (A : Mat) : Mat :=
  (List.range (A.headD []).length).map fun i => A.map fun row => row.getD i 0

/-- MatrixUtils.add: shape follows `A`, entries of `B` read by index. -/
def add (A B : Mat) : Mat :=
  mapIdxQ (fun i row => mapIdxQ (fun j v => v + ent B i j) row) A

/-- MatrixUtils.subtract. -/
def subtract (A B : Mat) : Mat :=
  mapIdxQ (fun i row => mapIdxQ (fun j v => v - ent B i j) row) A

/-- MatrixUtils.inverse2x2: adjugate over the determinant
`det = a·d − b·c`.  Over `ℚ`, division by a zero determinant yields `0`
entries (Lean's convention); the JavaScript `Infinity`/`NaN` behaviour
at a zero determinant is modelled separately by `inverse2x2Js`. -/
def inverse2x2 (A : Mat) : Mat :=
  let det := ent A 0 0 * ent A 1 1 - ent A 0 1 * ent A 1 0
  [[ent A 1 1 / det, -(ent A 0 1) / det],
   [-(ent A 1 0) / det, ent A 0 0 / det]]

/-- MatrixUtils.identity. -/
def identity (n : ℕ) : Mat :=
  (List.range n).map fun i => (List.range n).map fun j =>
    if i = j then 1 else 0

/-- MatrixUtils.extractSubmatrix: `slice(startRow, endRow+1)` of the
rows, then `slice(startCol, endCol+1)` of each kept row. -/
def extractSubmatrix (A : Mat) (startRow endRow startCol endCol : ℕ) : Mat :=
  ((A.drop startRow).take (endRow + 1 - startRow)).map fun row =>
    (row.drop startCol).take (endCol + 1 - startCol)

end MatrixUtils

/-- A JavaScript number as far as the claims need it: an exact rational,
`Infinity`, `-Infinity`, or `NaN`.  Rounding and overflow of finite
values are not modelled; only the propagation of the non-finite values
produced by dividing by a zero determinant. -/
inductive JsVal where
  | fin (q : ℚ)
  | inf
  | ninf
  | nan
deriving DecidableEq, Repr

namespace JsVal

/-- Number.isFinite. -/
def isFinite : JsVal → Bool
  | fin _ => true
  | _ => false

/-- JavaScript division of a finite numerator by a finite denominator:
`x / 0` is `Infinity` carrying the sign of `x`, and `0 / 0` is `NaN`. -/
def jsDiv (a b : ℚ) : JsVal :=
  if b ≠ 0 then fin (a / b)
  else if 0 < a then inf
  else if a < 0 then ninf
  else nan

/-- JavaScript multiplication: `NaN` propagates, `Infinity · 0` is
`NaN`, otherwise signs multiply. -/
def mul : JsVal → JsVal → JsVal
  | fin a, fin b => fin (a * b)
  | nan, _ => nan
  | _, nan => nan
  | inf, inf => inf
  | inf, ninf => ninf
  | ninf, inf => ninf
  | ninf, ninf => inf
  | inf, fin b => if 0 < b then inf else if b < 0 then ninf else nan
  | fin a, inf => if 0 < a then inf else if a < 0 then ninf else nan
  | ninf, fin b => if 0 < b then ninf else if b < 0 then inf else nan
  | fin a, ninf => if 0 < a then ninf else if a < 0 then inf else nan

/-- JavaScript addition: `NaN` propagates, `Infinity + (-Infinity)` is
`NaN`. -/
def add : JsVal → JsVal → JsVal
  | fin a, fin b => fin (a + b)
  | nan, _ => nan
  | _, nan => nan
  | inf, inf => inf
  | inf, ninf => nan
  | ninf, inf => nan
  | ninf, ninf => ninf
  | inf, fin _ => inf
  | fin _, inf => inf
  | ninf, fin _ => ninf
  | fin _, ninf => ninf

end JsVal

/-- MatrixUtils.inverse2x2 as JavaScript executes it on floats: each
entry is a division by `det`, so a zero determinant produces
`Infinity`/`NaN` entries instead of raising an error. -/
def inverse2x2Js (A : Mat) : List (List JsVal) :=
  let det := ent A 0 0 * ent A 1 1 - ent A 0 1 * ent A 1 0
  [[JsVal.jsDiv (ent A 1 1) det, JsVal.jsDiv (-(ent A 0 1)) det],
   [JsVal.jsDiv (-(ent A 1 0)) det, JsVal.jsDiv (ent A 0 0) det]]

/-- Entry read of a `JsVal` matrix (the defaults, never hit on the
shapes built here, are `NaN`). -/
def entJs (A : List (List JsVal)) (i j : ℕ) : JsVal :=
  (A.getD i []).getD j .nan

/-- The constant-acceleration state-transition matrix `F` built in the
KalmanFilter2D constructor. -/
def Fmat (dt : ℚ) : Mat :=
  [[1, 0, dt, 0, dt*dt/2, 0],
   [0, 1, 0, dt, 0, dt*dt/2],
   [0, 0, 1, 0, dt, 0],
   [0, 0, 0, 1, 0, dt],
   [0, 0, 0, 0, 1, 0],
   [0, 0, 0, 0, 0, 1]]

/-- The position-only measurement matrix `H`. -/
def Hmat : Mat :=
  [[1, 0, 0, 0, 0, 0],
   [0, 1, 0, 0, 0, 0]]

/-- The closed-form process-noise covariance `Q` rebuilt by
KalmanFilter2D.rebuildNoise from `dt` and the scalar `q`. -/
def Qmat (dt q : ℚ) : Mat :=
  [[dt^4/4 * q, 0, dt^3/2 * q, 0, dt^2/2 * q, 0],
   [0, dt^4/4 * q, 0, dt^3/2 * q, 0, dt^2/2 * q],
   [dt^3/2 * q, 0, dt^2 * q, 0, dt * q, 0],
   [0, dt^3/2 * q, 0, dt^2 * q, 0, dt * q],
   [dt^2/2 * q, 0, dt * q, 0, q, 0],
   [0, dt^2/2 * q, 0, dt * q, 0, q]]

/-- The measurement-noise covariance `R = r²·I₂` rebuilt by
rebuildNoise from the scalar `r`. -/
def Rmat (r : ℚ) : Mat :=
  [[r * r, 0], [0, r * r]]

/-- KalmanFilter2D: 6-state constant-acceleration filter.  `state` and
`covariance` are `none` while the filter is Uninitialized (JavaScript
`null`). -/
structure KalmanFilter2D where
  dt : ℚ
  initialized : Bool
  F : Mat
  H : Mat
  state : Option Mat
  covariance : Option Mat
  processNoiseScalar : ℚ
  measurementNoiseScalar : ℚ
  Q : Mat
  R : Mat
  lastInnovation : Option Mat
  lastKalmanGain : Option Mat
  lastInnovationCovariance : Option Mat
deriving DecidableEq, Repr

namespace KalmanFilter2D

/-- The KalmanFilter2D constructor with explicit `dt`,
`measurementNoise`, `processNoise` (the source's config defaults are
0.05, 15, 1). -/
def mk' (dt measurementNoise processNoise : ℚ) : KalmanFilter2D :=
  { dt := dt
    initialized := false
    F := Fmat dt
    H := Hmat
    state := none
    covariance := none
    processNoiseScalar := processNoise
    measurementNoiseScalar := measurementNoise
    Q := Qmat dt processNoise
    R := Rmat measurementNoise
    lastInnovation := none
    lastKalmanGain := none
    lastInnovationCovariance := none }

/-- KalmanFilter2D.rebuildNoise: recompute `Q` and `R` from the current
noise scalars. -/
def rebuildNoise (f : KalmanFilter2D) : KalmanFilter2D :=
  { f with Q := Qmat f.dt f.processNoiseScalar
           R := Rmat f.measurementNoiseScalar }

/-- KalmanFilter2D.setInitialState. -/
def setInitialState (f : KalmanFilter2D) (x0 P0 : Mat) : KalmanFilter2D :=
  { f with state := some x0, covariance := some P0, initialized := true }

/-- KalmanFilter2D.predict: `x ← F·x`, `P ← F·P·Fᵀ + Q`, clear the
cached innovation, gain and innovation covariance; no-op while
Uninitialized.  (The branch where the filter claims to be initialized
but holds no state is unreachable in the source and modelled as a
no-op.) -/
def predict (f : KalmanFilter2D) : KalmanFilter2D :=
  if f.initialized then
    match f.state, f.covariance with
    | some x, some P =>
        { f with
            state := some (MatrixUtils.multiply f.F x)
            covariance := some (MatrixUtils.add
              (MatrixUtils.multiply (MatrixUtils.multiply f.F P)
                (MatrixUtils.transpose f.F)) f.Q)
            lastInnovation := none
            lastKalmanGain := none
            lastInnovationCovariance := none }
    | _, _ => f
  else f

/-- KalmanFilter2D.update: innovation, innovation covariance, gain via
the 2 by 2 inverse, state correction, and the simple-form covariance
update `(I − K·H)·P`; no-op while Uninitialized. -/
def update (f : KalmanFilter2D) (z : Mat) : KalmanFilter2D :=
  if f.initialized then
    match f.state, f.covariance with
    | some x, some P =>
        let y := MatrixUtils.subtract z (MatrixUtils.multiply f.H x)
        let S := MatrixUtils.add
          (MatrixUtils.multiply (MatrixUtils.multiply f.H P)
            (MatrixUtils.transpose f.H)) f.R
        let K := MatrixUtils.multiply
          (MatrixUtils.multiply P (MatrixUtils.transpose f.H))
          (MatrixUtils.inverse2x2 S)
        { f with
            lastInnovation := some y
            lastInnovationCovariance := some S
            lastKalmanGain := some K
            state := some (MatrixUtils.add x (MatrixUtils.multiply K y))
            covariance := some (MatrixUtils.multiply
              (MatrixUtils.subtract (MatrixUtils.identity 6)
                (MatrixUtils.multiply K f.H)) P) }
    | _, _ => f
  else f

/-- KalmanFilter2D.updateNoise: store the new scalars and rebuild `Q`
and `R`. -/
def updateNoise (f : KalmanFilter2D) (measurementNoise processNoise : ℚ) :
    KalmanFilter2D :=
  rebuildNoise { f with processNoiseScalar := processNoise
                        measurementNoiseScalar := measurementNoise }

/-- FilterBase.getPosition: `null` without a state or with fewer than
two rows, otherwise `[state[0][0], state[1][0]]`. -/
def getPosition (f : KalmanFilter2D) : Option (ℚ × ℚ) :=
  match f.state with
  | none => none
  | some x => if x.length < 2 then none else some (ent x 0 0, ent x 1 0)

/-- FilterBase.getPositionCovariance: the top-left 2 by 2 block of the
covariance, `null` while there is none. -/
def getPositionCovariance (f : KalmanFilter2D) : Option Mat :=
  match f.covariance with
  | none => none
  | some P => some (MatrixUtils.extractSubmatrix P 0 1 0 1)

/-- The state the IMM mixing loop reads through `getState()` (never
`null` there, because the IMM only runs it once initialized). -/
def stateD (f : KalmanFilter2D) : Mat := f.state.getD []

/-- The covariance the IMM mixing loop reads. -/
def covD (f : KalmanFilter2D) : Mat := f.covariance.getD []

end KalmanFilter2D

/-- The zero-filled 6-vector accumulator `Array(6).fill().map(() => [0])`
that starts the IMM mixing and combination loops. -/
def zeros61 : Mat := (List.range 6).map fun _ => [0]

/-- The zero-filled 6 by 6 accumulator of the IMM covariance loops. -/
def zeros66 : Mat := (List.range 6).map fun _ => (List.range 6).map fun _ => 0

/-- IMMFilter._vsub: `a.map((row,i) => [a[i][0] - b[i][0]])`. -/
def vsub (a b : Mat) : Mat :=
  mapIdxQ (fun i _ => [ent a i 0 - ent b i 0]) a

/-- IMMFilter._outer: the 6 by 6 outer product `d·dᵀ`. -/
def outer (d : Mat) : Mat :=
  (List.range 6).map fun i => (List.range 6).map fun j =>
    ent d i 0 * ent d j 0

/-- IMMFilter._madd: shape follows `A`, entries of `B` read by index. -/
def madd (A B : Mat) : Mat :=
  mapIdxQ (fun i r => mapIdxQ (fun j v => v + ent B i j) r) A

/-- IMMFilter._mscale. -/
def mscale (A : Mat) (s : ℚ) : Mat :=
  A.map fun r => r.map fun v => v * s

/-- The IMM state-accumulation loop `x[r][0] += xᵢ[r][0]·wᵢ` over both
models, starting from the zero-filled 6-vector: row `r` holds
`0 + x₀[r][0]·w₀ + x₁[r][0]·w₁`. -/
def mixVec (x0 x1 : Mat) (w0 w1 : ℚ) : Mat :=
  (List.range 6).map fun r => [0 + ent x0 r 0 * w0 + ent x1 r 0 * w1]

/-- The IMM covariance-accumulation loop
`P = madd(P, mscale(madd(Pᵢ, outer(xᵢ − xmix)), wᵢ))` over both models,
starting from the zero-filled 6 by 6 matrix. -/
def mixCov (P0 P1 x0 x1 xmix : Mat) (w0 w1 : ℚ) : Mat :=
  madd (madd zeros66 (mscale (madd P0 (outer (vsub x0 xmix))) w0))
       (mscale (madd P1 (outer (vsub x1 xmix))) w1)

/-- IMMFilter: two constant-acceleration Kalman filters (`model0` slow,
`model1` fast process noise), model probabilities `mu0`, `mu1` and the
2 by 2 transition matrix `Pi`. -/
structure IMMFilter where
  dt : ℚ
  model0 : KalmanFilter2D
  model1 : KalmanFilter2D
  mu0 : ℚ
  mu1 : ℚ
  Pi : Mat
  initialized : Bool
  state : Option Mat
  covariance : Option Mat
  lastInnovation : Option Mat
  lastKalmanGain : Option Mat
  lastInnovationCovariance : Option Mat
deriving DecidableEq, Repr

namespace IMMFilter

/-- The IMMFilter constructor: two models sharing `dt` and the
measurement noise with distinct process noise, `mu = [0.5, 0.5]`, and
the given transition matrix (the constructor default is
`[[0.95,0.05],[0.05,0.95]]`; the registry passes
`[[0.94,0.06],[0.06,0.94]]`). -/
def mk' (dt measurementNoise processNoiseSlow processNoiseFast : ℚ)
    (trans : Mat) : IMMFilter :=
  { dt := dt
    model0 := KalmanFilter2D.mk' dt measurementNoise processNoiseSlow
    model1 := KalmanFilter2D.mk' dt measurementNoise processNoiseFast
    mu0 := 1/2
    mu1 := 1/2
    Pi := trans
    initialized := false
    state := none
    covariance := none
    lastInnovation := none
    lastKalmanGain := none
    lastInnovationCovariance := none }

/-- IMMFilter.initialize (named `initializeModels` here): seed both
models with the same state and covariance and become Ready.  `mu` stays
as the constructor set it. -/
def initializeModels (m : IMMFilter) (x0 P0 : Mat) : IMMFilter :=
  { m with model0 := m.model0.setInitialState x0 P0
           model1 := m.model1.setInitialState x0 P0
           state := some x0
           covariance := some P0
           initialized := true }

/-- IMMFilter._combineByMu: probability-weighted combination of the two
model states and covariances, written into `state`/`covariance`. -/
def combineByMu (m : IMMFilter) : IMMFilter :=
  let x := mixVec m.model0.stateD m.model1.stateD m.mu0 m.mu1
  let P := mixCov m.model0.covD m.model1.covD
    m.model0.stateD m.model1.stateD x m.mu0 m.mu1
  { m with state := some x, covariance := some P }

/-- IMMFilter.predict: mixing (normalizers floored at `1e-12`), mixed
prior injection and per-model predict, then combination.  The source's
`j`-loop mutates `models[j]` in place, so the mixing for model 1 reads
the already-mixed-and-predicted model 0; that sequencing is reproduced
here.  No-op while Uninitialized. -/
def predict (m : IMMFilter) : IMMFilter :=
  if m.initialized then
    let c0 := max (ent m.Pi 0 0 * m.mu0 + ent m.Pi 1 0 * m.mu1) eps12
    let c1 := max (ent m.Pi 0 1 * m.mu0 + ent m.Pi 1 1 * m.mu1) eps12
    let w00 := ent m.Pi 0 0 * m.mu0 / c0
    let w01 := ent m.Pi 0 1 * m.mu0 / c1
    let w10 := ent m.Pi 1 0 * m.mu1 / c0
    let w11 := ent m.Pi 1 1 * m.mu1 / c1
    let x00 := mixVec m.model0.stateD m.model1.stateD w00 w10
    let P00 := mixCov m.model0.covD m.model1.covD
      m.model0.stateD m.model1.stateD x00 w00 w10
    let model0' :=
      ({ m.model0 with state := some x00, covariance := some P00 }
        : KalmanFilter2D).predict
    let x01 := mixVec model0'.stateD m.model1.stateD w01 w11
    let P01 := mixCov model0'.covD m.model1.covD
      model0'.stateD m.model1.stateD x01 w01 w11
    let model1' :=
      ({ m.model1 with state := some x01, covariance := some P01 }
        : KalmanFilter2D).predict
    combineByMu { m with model0 := model0', model1 := model1' }
  else m

/-- IMMFilter.update with the two model likelihoods `Λ₀`, `Λ₁` passed
explicitly (the source computes them with `Math.exp`/`Math.sqrt`; the
exact-real formula is `likelihoodR`, and theorems connect the arguments
to it through `IsLikelihoodOf`).  Both models are updated, the
probabilities are renormalized with `1e-12` ADDED to the denominator,
the active model's caches are exposed (ties favour model 0), and the
outputs are combined.  No-op while Uninitialized. -/
def updateWith (m : IMMFilter) (z : Mat) (like0 like1 : ℚ) : IMMFilter :=
  if m.initialized then
    let m0 := m.model0.update z
    let m1 := m.model1.update z
    let mixPrior0 := ent m.Pi 0 0 * m.mu0 + ent m.Pi 1 0 * m.mu1
    let mixPrior1 := ent m.Pi 0 1 * m.mu0 + ent m.Pi 1 1 * m.mu1
    let norm := like0 * mixPrior0 + like1 * mixPrior1 + eps12
    let newMu0 := like0 * mixPrior0 / norm
    let newMu1 := like1 * mixPrior1 / norm
    let act : KalmanFilter2D := if newMu1 ≤ newMu0 then m0 else m1
    combineByMu
      { m with model0 := m0, model1 := m1, mu0 := newMu0, mu1 := newMu1,
               lastInnovation := act.lastInnovation,
               lastInnovationCovariance := act.lastInnovationCovariance,
               lastKalmanGain := act.lastKalmanGain }
  else m

end IMMFilter

/-- The innovation `y` cached by `f.update z` (what the IMM likelihood
loop reads as `this.models[j].lastInnovation`). -/
def innovOf (f : KalmanFilter2D) (z : Mat) : Mat :=
  ((f.update z).lastInnovation).getD []

/-- The innovation covariance `S` cached by `f.update z`. -/
def innovCovOf (f : KalmanFilter2D) (z : Mat) : Mat :=
  ((f.update z).lastInnovationCovariance).getD []

/-- The model likelihood the IMM update computes from the cached `y` and
`S`: `exp(−0.5·max(0, yᵀS⁻¹y)) / sqrt(max(det S, 1e-9))`, as an exact
real number (the source computes it in floating point). -/
noncomputable def likelihoodR (y S : Mat) : ℝ :=
  let Sinv := MatrixUtils.inverse2x2 S
  let detS : ℚ := ent S 0 0 * ent S 1 1 - ent S 0 1 * ent S 1 0
  let q : ℚ := ent y 0 0 * (ent Sinv 0 0 * ent y 0 0 + ent Sinv 0 1 * ent y 1 0)
             + ent y 1 0 * (ent Sinv 1 0 * ent y 0 0 + ent Sinv 1 1 * ent y 1 0)
  Real.exp (-(1/2 : ℝ) * max 0 (q : ℝ)) / Real.sqrt (max (detS : ℝ) (1/10^9))

/-- A rational `l` is the value of the exact-real likelihood for the
cached innovation `y` and innovation covariance `S`. -/
def IsLikelihoodOf (l : ℚ) (y S : Mat) : Prop :=
  (l : ℝ) = likelihoodR y S

/-! ### The simulation pipeline (SimulationController.generateData)

The pipeline drives the `KalmanFilter2D` estimator (both filter kinds
satisfy the same capability contract; the claims about pipeline
behaviour are settled on this instance).  Canvas/DOM consumers, the
`filterSpecificData` extraction hook, and the display-only
`errorHistory`/`confidenceHistory` lists (whose entries take
floating-point square roots and which no claim reads) are not
modelled.  The `t += dt` accumulation is indexed by the tick number
`k`, with `t = k·dt` exact; ticks run while `t ≤ maxTime + 1e-9`.
Gaussian noise draws are a stream `noise : ℕ → ℚ × ℚ` consumed once per
measurement, matching `NoiseUtils.addGaussianNoise` adding one draw per
coordinate. -/

/-- The configuration SimulationController reads (source defaults). -/
structure SimConfig where
  maxTime : ℚ := 30
  dt : ℚ := 1/20
  measurementRatio : ℚ := 2
  bootstrapMeasurements : ℕ := 3
  measurementNoise : ℚ := 15
  processNoise : ℚ := 1

/-- SimulationController.updateMeasurementRate:
`measurementRate = dt · measurementRatio`. -/
def SimConfig.measurementRate (cfg : SimConfig) : ℚ :=
  cfg.dt * cfg.measurementRatio

/-- The per-tick `filterState` record pushed onto `filterStates`. -/
structure Snapshot where
  state : Option Mat
  covariance : Option Mat
  fullCovariance : Option Mat
  innovation : Option Mat
  kalmanGain : Option Mat
  innovationCovariance : Option Mat
  hadMeasurement : Bool
  initialized : Bool
  bootstrapCount : ℕ
  bootstrapNeeded : ℕ
  coveragePct : Option ℚ
deriving DecidableEq, Repr

/-- The mutable state of one generateData run: the estimator, the
measurement clock and bootstrap buffer, the persistent
innovation/gain/covariance display caches, the coverage counters, the
measurement count (indexing the noise stream) and the recorded
snapshots. -/
structure SimState where
  filter : KalmanFilter2D
  lastMeasurementTime : Option ℚ
  buffer : List (ℚ × (ℚ × ℚ))
  lastInnovation : Option Mat
  lastKalmanGain : Option Mat
  lastInnovationCovariance : Option Mat
  coverageHits : ℕ
  coverageTotal : ℕ
  measCount : ℕ
  snapshots : List Snapshot
deriving DecidableEq, Repr

/-- SimulationController.buildInitialCovariance: zero off-diagonals,
`4·measVar` on the positions, `1000` on the velocities and `10000` on
the accelerations. -/
def buildInitialCovariance (measVar : ℚ) : Mat :=
  [[measVar * 4, 0, 0, 0, 0, 0],
   [0, measVar * 4, 0, 0, 0, 0],
   [0, 0, 1000, 0, 0, 0],
   [0, 0, 0, 1000, 0, 0],
   [0, 0, 0, 0, 10000, 0],
   [0, 0, 0, 0, 0, 10000]]

/-- SimulationController.initializeFromBuffer: average the last three
buffered positions, zero velocity and acceleration, covariance
`buildInitialCovariance(r²)`; seed the estimator with them.  `buffer`
entries are `(time, (x, y))`; the source indexes `buffer[n-3..n-1]` and
would fault on a shorter buffer. -/
def initializeFromBuffer (cfg : SimConfig) (buffer : List (ℚ × (ℚ × ℚ)))
    (f : KalmanFilter2D) : KalmanFilter2D :=
  let n := buffer.length
  let m1 := (buffer.getD (n - 3) (0, (0, 0))).2
  let m2 := (buffer.getD (n - 2) (0, (0, 0))).2
  let m3 := (buffer.getD (n - 1) (0, (0, 0))).2
  let x3 := (m1.1 + m2.1 + m3.1) / 3
  let y3 := (m1.2 + m2.2 + m3.2) / 3
  let x0 : Mat := [[x3], [y3], [0], [0], [0], [0]]
  let r := cfg.measurementNoise
  let P0 := buildInitialCovariance (r * r)
  f.setInitialState x0 P0

/-- The bootstrap check run after every measurement is buffered:
initialize from the buffer once it holds `bootstrapNeeded` entries and
the estimator is still Uninitialized. -/
def bootstrapPhase (cfg : SimConfig) (buffer : List (ℚ × (ℚ × ℚ)))
    (f : KalmanFilter2D) : KalmanFilter2D :=
  if ¬ f.initialized ∧ cfg.bootstrapMeasurements ≤ buffer.length then
    initializeFromBuffer cfg buffer f
  else f

/-- The measurement-arrival test
`t − lastMeasurementTime ≥ measurementRate − dt/2`;
`lastMeasurementTime` starts as `-Infinity` (`none`), against which the
test always passes. -/
def measurementFires (cfg : SimConfig) (lastMeasurementTime : Option ℚ)
    (t : ℚ) : Bool :=
  match lastMeasurementTime with
  | none => true
  | some lm => decide (cfg.measurementRate - cfg.dt / 2 ≤ t - lm)

/-- The chi-square coverage update of generateData (the block guarded by
`Number.isFinite(d2)`): invert the position covariance with JavaScript
semantics — a singular covariance produces `Infinity`/`NaN` entries —
form the squared Mahalanobis distance `d2` of the truth-minus-estimate
residual, and only when `d2` is finite increment `total`, and `hits`
when moreover `d2 ≤ 5.991`. -/
def coverageStep (truth pos : ℚ × ℚ) (covPos : Mat) (hits total : ℕ) :
    ℕ × ℕ :=
  let r0 := truth.1 - pos.1
  let r1 := truth.2 - pos.2
  let Sinv := inverse2x2Js covPos
  let d2 := JsVal.add
    (JsVal.mul (.fin r0)
      (JsVal.add (JsVal.mul (entJs Sinv 0 0) (.fin r0))
                 (JsVal.mul (entJs Sinv 0 1) (.fin r1))))
    (JsVal.mul (.fin r1)
      (JsVal.add (JsVal.mul (entJs Sinv 1 0) (.fin r0))
                 (JsVal.mul (entJs Sinv 1 1) (.fin r1))))
  match d2 with
  | .fin v => (if v ≤ chi95 then hits + 1 else hits, total + 1)
  | _ => (hits, total)

/-- The single `filterState` object literal generateData pushes at the
end of every tick; `coveragePct` is `hits/total` once `total > 0` and
`null` before. -/
def mkSnapshot (st cov fullP inn gain innCov : Option Mat)
    (hadMeasurement initialized : Bool) (bufLen bootstrapNeeded : ℕ)
    (hits total : ℕ) : Snapshot :=
  { state := st
    covariance := cov
    fullCovariance := fullP
    innovation := inn
    kalmanGain := gain
    innovationCovariance := innCov
    hadMeasurement := hadMeasurement
    initialized := initialized
    bootstrapCount := min bufLen bootstrapNeeded
    bootstrapNeeded := bootstrapNeeded
    coveragePct := if 0 < total then some ((hits : ℚ) / total) else none }

/-- One iteration of the generateData time loop at tick `k`
(`t = k·dt`): read truth, decide measurement arrival, buffer and
bootstrap, predict/update once Ready, refresh the display caches and
the coverage counters, and push the snapshot. -/
def simTick (cfg : SimConfig) (traj : ℚ → ℚ × ℚ) (noise : ℕ → ℚ × ℚ)
    (st : SimState) (k : ℕ) : SimState :=
  let t : ℚ := (k : ℚ) * cfg.dt
  let truth := traj t
  let fires := measurementFires cfg st.lastMeasurementTime t
  let draw := noise st.measCount
  let z : ℚ × ℚ := (truth.1 + draw.1, truth.2 + draw.2)
  let buffer' := if fires then st.buffer ++ [(t, z)] else st.buffer
  let filter0 := if fires then bootstrapPhase cfg buffer' st.filter
                 else st.filter
  let st1 : SimState :=
    if fires then
      { st with buffer := buffer', lastMeasurementTime := some t,
                filter := filter0, measCount := st.measCount + 1 }
    else st
  if filter0.initialized then
    let f1 := filter0.predict
    let f2 := if fires then f1.update [[z.1], [z.2]] else f1
    let lastInn := match f2.lastInnovation with
      | some y => some y
      | none => st.lastInnovation
    let lastGain := match f2.lastKalmanGain with
      | some K => some K
      | none => st.lastKalmanGain
    let lastInnCov := match f2.lastInnovationCovariance with
      | some S => some S
      | none => st.lastInnovationCovariance
    let pos := f2.getPosition
    let covPos := f2.getPositionCovariance
    let counts := match pos, covPos with
      | some p, some cp =>
          coverageStep truth p cp st.coverageHits st.coverageTotal
      | _, _ => (st.coverageHits, st.coverageTotal)
    let snap := mkSnapshot f2.state covPos f2.covariance
      lastInn lastGain lastInnCov fires true buffer'.length
      cfg.bootstrapMeasurements counts.1 counts.2
    { st1 with filter := f2, lastInnovation := lastInn,
               lastKalmanGain := lastGain,
               lastInnovationCovariance := lastInnCov,
               coverageHits := counts.1, coverageTotal := counts.2,
               snapshots := st1.snapshots ++ [snap] }
  else
    let snap := mkSnapshot none none none st1.lastInnovation
      st1.lastKalmanGain st1.lastInnovationCovariance fires false
      buffer'.length cfg.bootstrapMeasurements st1.coverageHits
      st1.coverageTotal
    { st1 with snapshots := st1.snapshots ++ [snap] }

/-- The initial generateData run state: a freshly constructed estimator,
`lastMeasurementTime = -Infinity`, empty buffer, zero coverage
counters. -/
def simInit (cfg : SimConfig) : SimState :=
  { filter := KalmanFilter2D.mk' cfg.dt cfg.measurementNoise cfg.processNoise
    lastMeasurementTime := none
    buffer := []
    lastInnovation := none
    lastKalmanGain := none
    lastInnovationCovariance := none
    coverageHits := 0
    coverageTotal := 0
    measCount := 0
    snapshots := [] }

/-- The number of iterations of `for (t = 0; t ≤ maxTime + 1e-9; t += dt)`
with `t = k·dt` exact. -/
def tickCount (cfg : SimConfig) : ℕ :=
  (⌊(cfg.maxTime + 1/10^9) / cfg.dt⌋).toNat + 1

/-- Run generateData for `n` ticks. -/
def simRun (cfg : SimConfig) (traj : ℚ → ℚ × ℚ) (noise : ℕ → ℚ × ℚ)
    (n : ℕ) : SimState :=
  (List.range n).foldl (simTick cfg traj noise) (simInit cfg)

/-! ### The filter registry (FilterRegistry) -/

/-- One registry entry: the factory the registry invokes.  `α` is the
filter-instance type and `β` the construction config; the display,
UI-config and data-extraction hooks live outside the estimation core. -/
structure FilterConfigR (α β : Type) where
  createInstance : β → α

/-- The static string-keyed filter map. -/
def FilterRegistry (α β : Type) := List (String × FilterConfigR α β)

/-- FilterRegistry.createFilter: look the key up; throw
`Unknown filter type: ⟨key⟩` when absent, otherwise return the factory's
instance. -/
def createFilter {α β : Type} (reg : FilterRegistry α β) (filterKey : String)
    (config : β) : Except String α :=
  match List.lookup filterKey reg with
  | none => .error ("Unknown filter type: " ++ filterKey)
  | some filterConfig => .ok (filterConfig.createInstance config)

/-! ### Tick sequences for the IMM-degeneracy comparison -/

/-- One driven event: a predict tick, or an update with the measurement
and the two likelihood values the IMM computes at that update. -/
inductive Ev where
  | pred
  | upd (z : Mat) (l0 l1 : ℚ)

/-- Drive an IMM filter through a sequence of events. -/
def runIMM (m : IMMFilter) : List Ev → IMMFilter
  | [] => m
  | Ev.pred :: es => runIMM m.predict es
  | Ev.upd z l0 l1 :: es => runIMM (m.updateWith z l0 l1) es

/-- Drive a standalone KalmanFilter2D through the same events (the
likelihood values concern only the IMM). -/
def runKF (f : KalmanFilter2D) : List Ev → KalmanFilter2D
  | [] => f
  | Ev.pred :: es => runKF f.predict es
  | Ev.upd z _ _ :: es => runKF (f.update z) es

/-! ### Supporting lemmas -/

/-- When the innovation is zero and the innovation covariance is the
diagonal `[[s,0],[0,s]]` with `s > 0` and `s² ≥ 1e-9`, the exact-real
likelihood evaluates to the rational `1/s` (the Mahalanobis form is `0`,
`exp 0 = 1`, and `√(s²) = s`). -/
theorem isLikelihoodOf_diag (y S : Mat) (s : ℚ)
    (hy0 : ent y 0 0 = 0) (hy1 : ent y 1 0 = 0)
    (hS00 : ent S 0 0 = s) (hS11 : ent S 1 1 = s)
    (hS01 : ent S 0 1 = 0) (hS10 : ent S 1 0 = 0)
    (hs : 0 < s) (hsq : 1/10^9 ≤ s * s) :
    IsLikelihoodOf (1/s) y S := by
  unfold IsLikelihoodOf likelihoodR
  simp only [hy0, hy1, hS00, hS11, hS01, hS10]
  have h1 : (0 : ℚ) * (ent (MatrixUtils.inverse2x2 S) 0 0 * 0 +
      ent (MatrixUtils.inverse2x2 S) 0 1 * 0) +
      0 * (ent (MatrixUtils.inverse2x2 S) 1 0 * 0 +
      ent (MatrixUtils.inverse2x2 S) 1 1 * 0) = 0 := by ring
  rw [h1]
  have h2 : max (0:ℝ) ((0:ℚ) : ℝ) = 0 := by norm_num
  rw [h2]
  have h3 : Real.exp (-(1/2 : ℝ) * 0) = 1 := by
    norm_num [Real.exp_zero]
  rw [h3]
  have h4 : max (((s * s - 0 * 0 : ℚ)) : ℝ) ((1:ℝ)/10^9) = (s : ℝ) * s := by
    have hcast : (((1:ℚ)/10^9 : ℚ) : ℝ) ≤ ((s * s : ℚ) : ℝ) := Rat.cast_le.mpr hsq
    push_cast at hcast
    have he : ((s * s - 0 * 0 : ℚ) : ℝ) = (s : ℝ) * s := by push_cast; ring
    rw [he, max_eq_left (by linarith)]
  rw [h4]
  have h5 : Real.sqrt ((s : ℝ) * s) = (s : ℝ) := by
    rw [Real.sqrt_mul_self]
    exact_mod_cast hs.le
  rw [h5]
  push_cast
  ring

/-- The claim relating C4: the update equations of KalmanFilter2D.
Claim C4 — confirmed.  For an initialized filter (state and covariance
present), `update(z)` caches `y = z − H·x`, `S = H·P·Hᵀ + R`,
`K = P·Hᵀ·S⁻¹` via the 2 by 2 inverse, and assigns `x ← x + K·y`,
`P ← (I − K·H)·P` (the simple, non-Joseph form), leaving `dt`, `F`,
`H`, `Q`, `R`, the noise scalars and the initialized flag unchanged;
while Uninitialized, `update(z)` returns the filter with every field
unchanged. -/
theorem claim_C4_update_equations :
    (∀ (f : KalmanFilter2D) (z x P : Mat),
      f.initialized = true → f.state = some x → f.covariance = some P →
      f.update z =
        { f with
            lastInnovation :=
              some (MatrixUtils.subtract z (MatrixUtils.multiply f.H x))
            lastInnovationCovariance :=
              some (MatrixUtils.add
                (MatrixUtils.multiply (MatrixUtils.multiply f.H P)
                  (MatrixUtils.transpose f.H)) f.R)
            lastKalmanGain :=
              some (MatrixUtils.multiply
                (MatrixUtils.multiply P (MatrixUtils.transpose f.H))
                (MatrixUtils.inverse2x2 (MatrixUtils.add
                  (MatrixUtils.multiply (MatrixUtils.multiply f.H P)
                    (MatrixUtils.transpose f.H)) f.R)))
            state :=
              some (MatrixUtils.add x (MatrixUtils.multiply
                (MatrixUtils.multiply
                  (MatrixUtils.multiply P (MatrixUtils.transpose f.H))
                  (MatrixUtils.inverse2x2 (MatrixUtils.add
                    (MatrixUtils.multiply (MatrixUtils.multiply f.H P)
                      (MatrixUtils.transpose f.H)) f.R)))
                (MatrixUtils.subtract z (MatrixUtils.multiply f.H x))))
            covariance :=
              some (MatrixUtils.multiply
                (MatrixUtils.subtract (MatrixUtils.identity 6)
                  (MatrixUtils.multiply
                    (MatrixUtils.multiply
                      (MatrixUtils.multiply P (MatrixUtils.transpose f.H))
                      (MatrixUtils.inverse2x2 (MatrixUtils.add
                        (MatrixUtils.multiply (MatrixUtils.multiply f.H P)
                          (MatrixUtils.transpose f.H)) f.R)))
                    f.H)) P) }) ∧
    (∀ (f : KalmanFilter2D) (z : Mat),
      f.initialized = false → f.update z = f) := by
  constructor
  · intro f z x P h1 h2 h3
    simp only [KalmanFilter2D.update, h1, h2, h3, if_true]
  · intro f z h
    simp only [KalmanFilter2D.update, h, Bool.false_eq_true, if_false]

/-- Witness for claim C4 at a concrete initialized filter and a concrete
uninitialized one. -/
theorem claim_C4_witness :
    (((KalmanFilter2D.mk' 1 1 1).setInitialState
        [[1],[2],[0],[0],[0],[0]] (buildInitialCovariance 1)).initialized
      = true) ∧
    ((KalmanFilter2D.mk' 1 1 1).initialized = false) ∧
    (((KalmanFilter2D.mk' 1 1 1).setInitialState
        [[1],[2],[0],[0],[0],[0]] (buildInitialCovariance 1)).update
        [[3],[4]]).lastInnovation =
      some (MatrixUtils.subtract [[3],[4]]
        (MatrixUtils.multiply Hmat [[1],[2],[0],[0],[0],[0]])) ∧
    ((KalmanFilter2D.mk' 1 1 1).update [[3],[4]] =
      KalmanFilter2D.mk' 1 1 1) := by
  refine ⟨rfl, rfl, ?_, ?_⟩
  · have h := (claim_C4_update_equations.1
      ((KalmanFilter2D.mk' 1 1 1).setInitialState
        [[1],[2],[0],[0],[0],[0]] (buildInitialCovariance 1))
      [[3],[4]] [[1],[2],[0],[0],[0],[0]] (buildInitialCovariance 1)
      rfl rfl rfl)
    rw [h]
    rfl
  · exact claim_C4_update_equations.2 (KalmanFilter2D.mk' 1 1 1) [[3],[4]] rfl

/-- Claim C6 — confirmed.  `updateNoise(r, q)` stores the scalars and
recomputes `Q = Qmat(dt, q)` and `R = r²·I₂`, and every other field —
state, covariance, initialized flag, `F`, `H`, `dt` — is unchanged,
whatever the filter's current state. -/
theorem claim_C6_updateNoise_frame :
    ∀ (f : KalmanFilter2D) (r q : ℚ),
      f.updateNoise r q =
        { f with processNoiseScalar := q
                 measurementNoiseScalar := r
                 Q := Qmat f.dt q
                 R := Rmat r } ∧
      (f.updateNoise r q).state = f.state ∧
      (f.updateNoise r q).covariance = f.covariance ∧
      (f.updateNoise r q).initialized = f.initialized ∧
      (f.updateNoise r q).F = f.F ∧
      (f.updateNoise r q).H = f.H := by
  intro f r q
  refine ⟨rfl, rfl, rfl, rfl, rfl, rfl⟩

/-- Claim C8 — confirmed.  `createFilter` throws the named error
`Unknown filter type: ⟨key⟩` exactly when the key is not registered, and
for a registered key returns the instance produced by that entry's
factory. -/
theorem claim_C8_registry_lookup :
    ∀ {α β : Type} (reg : FilterRegistry α β) (key : String) (cfg : β),
      (List.lookup key reg = none →
        createFilter reg key cfg = .error ("Unknown filter type: " ++ key)) ∧
      (∀ c, List.lookup key reg = some c →
        createFilter reg key cfg = .ok (c.createInstance cfg)) := by
  intro α β reg key cfg
  constructor
  · intro h
    simp only [createFilter, h]
  · intro c h
    simp only [createFilter, h]

/-- Witness for claim C8: a two-entry registry, one missing key (the
named error surfaces) and one registered key (the factory's instance is
returned). -/
theorem claim_C8_witness :
    (List.lookup "ekf" ([("kf", ⟨fun n => n + 1⟩), ("imm", ⟨fun n => n * 2⟩)] :
        FilterRegistry ℕ ℕ) = none) ∧
    createFilter ([("kf", ⟨fun n => n + 1⟩), ("imm", ⟨fun n => n * 2⟩)] :
        FilterRegistry ℕ ℕ) "ekf" 5 = .error "Unknown filter type: ekf" ∧
    (List.lookup "imm" ([("kf", ⟨fun n => n + 1⟩), ("imm", ⟨fun n => n * 2⟩)] :
        FilterRegistry ℕ ℕ) = some ⟨fun n => n * 2⟩) ∧
    createFilter ([("kf", ⟨fun n => n + 1⟩), ("imm", ⟨fun n => n * 2⟩)] :
        FilterRegistry ℕ ℕ) "imm" 5 = .ok 10 := by
  have hmiss : List.lookup "ekf" ([("kf", ⟨fun n => n + 1⟩),
      ("imm", ⟨fun n => n * 2⟩)] : FilterRegistry ℕ ℕ) = none := rfl
  have hhit : List.lookup "imm" ([("kf", ⟨fun n => n + 1⟩),
      ("imm", ⟨fun n => n * 2⟩)] : FilterRegistry ℕ ℕ) =
      some ⟨fun n => n * 2⟩ := rfl
  refine ⟨hmiss, ?_, hhit, ?_⟩
  · exact (claim_C8_registry_lookup ([("kf", ⟨fun n => n + 1⟩),
      ("imm", ⟨fun n => n * 2⟩)] : FilterRegistry ℕ ℕ) "ekf" 5).1 hmiss
  · exact (claim_C8_registry_lookup ([("kf", ⟨fun n => n + 1⟩),
      ("imm", ⟨fun n => n * 2⟩)] : FilterRegistry ℕ ℕ) "imm" 5).2
      ⟨fun n => n * 2⟩ hhit

/-- Claim C10 — confirmed.  `IMMFilter.predict` leaves the cached
`lastInnovation`, `lastKalmanGain` and `lastInnovationCovariance`
unchanged (they keep the previous update's values), whereas an
initialized `KalmanFilter2D.predict` resets all three to `null`; so on
a tick with no measurement the IMM exposes the previous tick's
innovation, gain and innovation covariance where the plain filter
exposes none. -/
theorem claim_C10_predict_caches :
    (∀ m : IMMFilter,
      m.predict.lastInnovation = m.lastInnovation ∧
      m.predict.lastKalmanGain = m.lastKalmanGain ∧
      m.predict.lastInnovationCovariance = m.lastInnovationCovariance) ∧
    (∀ (f : KalmanFilter2D) (x P : Mat),
      f.initialized = true → f.state = some x → f.covariance = some P →
      f.predict.lastInnovation = none ∧
      f.predict.lastKalmanGain = none ∧
      f.predict.lastInnovationCovariance = none) := by
  constructor
  · intro m
    cases hm : m.initialized
    · simp [IMMFilter.predict, hm]
    · simp [IMMFilter.predict, hm, IMMFilter.combineByMu]
  · intro f x P h1 h2 h3
    simp [KalmanFilter2D.predict, h1, h2, h3]

/-- Witness for claim C10's hypotheses at a concrete initialized filter:
after predict, the plain filter's caches are cleared while the IMM's
(seeded by an update) are kept. -/
theorem claim_C10_witness :
    (((KalmanFilter2D.mk' 1 1 1).setInitialState
        [[1],[2],[0],[0],[0],[0]] (buildInitialCovariance 1)).predict.lastInnovation
      = none) ∧
    ((((IMMFilter.mk' 1 1 1 3 [[1,0],[0,1]]).initializeModels
        [[1],[2],[0],[0],[0],[0]] (buildInitialCovariance 1)).updateWith
        [[1],[2]] 1 1).predict.lastInnovation =
      (((IMMFilter.mk' 1 1 1 3 [[1,0],[0,1]]).initializeModels
        [[1],[2],[0],[0],[0],[0]] (buildInitialCovariance 1)).updateWith
        [[1],[2]] 1 1).lastInnovation) := by
  constructor
  · exact (claim_C10_predict_caches.2
      ((KalmanFilter2D.mk' 1 1 1).setInitialState
        [[1],[2],[0],[0],[0],[0]] (buildInitialCovariance 1))
      [[1],[2],[0],[0],[0],[0]] (buildInitialCovariance 1) rfl rfl rfl).1
  · exact (claim_C10_predict_caches.1
      (((IMMFilter.mk' 1 1 1 3 [[1,0],[0,1]]).initializeModels
        [[1],[2],[0],[0],[0],[0]] (buildInitialCovariance 1)).updateWith
        [[1],[2]] 1 1)).1

/-- Claim C5 — confirmed.  `inverse2x2` is total (never raises): over
exact arithmetic it returns the adjugate divided by `det = a·d − b·c`
whenever the determinant is nonzero, and at a zero determinant the
JavaScript execution (`inverse2x2Js`) returns `Infinity`/`NaN` entries
rather than failing.  (A determinant that is merely near zero but
nonzero divides exactly here; the spec's "near zero" covers the
floating-point underflow of that same division.) -/
theorem claim_C5_inverse2x2_total :
    ∀ a b c d : ℚ,
      (a * d - b * c ≠ 0 →
        MatrixUtils.inverse2x2 [[a, b], [c, d]] =
          [[d / (a * d - b * c), -b / (a * d - b * c)],
           [-c / (a * d - b * c), a / (a * d - b * c)]] ∧
        inverse2x2Js [[a, b], [c, d]] =
          [[.fin (d / (a * d - b * c)), .fin (-b / (a * d - b * c))],
           [.fin (-c / (a * d - b * c)), .fin (a / (a * d - b * c))]]) ∧
      (a * d - b * c = 0 →
        ∀ i j : ℕ,
          (entJs (inverse2x2Js [[a, b], [c, d]]) i j).isFinite = false) := by
  intro a b c d
  have e00 : ent [[a, b], [c, d]] 0 0 = a := rfl
  have e01 : ent [[a, b], [c, d]] 0 1 = b := rfl
  have e10 : ent [[a, b], [c, d]] 1 0 = c := rfl
  have e11 : ent [[a, b], [c, d]] 1 1 = d := rfl
  constructor
  · intro h
    constructor
    · simp only [MatrixUtils.inverse2x2, e00, e01, e10, e11]
    · simp only [inverse2x2Js, e00, e01, e10, e11, JsVal.jsDiv, ne_eq, h,
        not_false_eq_true, if_true]
  · intro h i j
    have hdet : ent [[a, b], [c, d]] 0 0 * ent [[a, b], [c, d]] 1 1 -
        ent [[a, b], [c, d]] 0 1 * ent [[a, b], [c, d]] 1 0 = 0 := by
      rw [e00, e01, e10, e11]; exact h
    match i, j with
    | 0, 0 =>
        simp [inverse2x2Js, entJs, hdet, JsVal.jsDiv]
        split_ifs <;> rfl
    | 0, 1 =>
        simp [inverse2x2Js, entJs, hdet, JsVal.jsDiv]
        split_ifs <;> rfl
    | 1, 0 =>
        simp [inverse2x2Js, entJs, hdet, JsVal.jsDiv]
        split_ifs <;> rfl
    | 1, 1 =>
        simp [inverse2x2Js, entJs, hdet, JsVal.jsDiv]
        split_ifs <;> rfl
    | 0, j + 2 => rfl
    | 1, j + 2 => rfl
    | i + 2, j => rfl

/-- Witness for claim C5 at a concrete invertible matrix and a concrete
singular one. -/
theorem claim_C5_witness :
    ((2 : ℚ) * 2 - 1 * 1 ≠ 0) ∧
    MatrixUtils.inverse2x2 [[2, 1], [1, 2]] =
      [[2/3, -(1/3)], [-(1/3), 2/3]] ∧
    ((1 : ℚ) * 4 - 2 * 2 = 0) ∧
    (entJs (inverse2x2Js [[1, 2], [2, 4]]) 0 0).isFinite = false := by
  have h1 : (2 : ℚ) * 2 - 1 * 1 ≠ 0 := by norm_num
  have h2 : (1 : ℚ) * 4 - 2 * 2 = 0 := by norm_num
  refine ⟨h1, ?_, h2, ?_⟩
  · have := (claim_C5_inverse2x2_total 2 1 1 2).1 h1
    rw [this.1]
    norm_num
  · exact (claim_C5_inverse2x2_total 1 2 2 4).2 h2 0 0

/-- Claim C2 — corrected.  The probability update is
`muⱼ ← Λⱼ·cⱼ / (Σᵢ Λᵢ·cᵢ + 1e-12)` with `cⱼ = Σᵢ Pi[i][j]·mu[i]`:
`1e-12` is ADDED to the denominator, it is not a floor
(`max(denominator, 1e-12)`) as the claim states. -/
theorem claim_C2_amended_mu_update :
    ∀ (m : IMMFilter) (z : Mat) (like0 like1 : ℚ), m.initialized = true →
      (m.updateWith z like0 like1).mu0 =
        like0 * (ent m.Pi 0 0 * m.mu0 + ent m.Pi 1 0 * m.mu1) /
          (like0 * (ent m.Pi 0 0 * m.mu0 + ent m.Pi 1 0 * m.mu1) +
           like1 * (ent m.Pi 0 1 * m.mu0 + ent m.Pi 1 1 * m.mu1) + eps12) ∧
      (m.updateWith z like0 like1).mu1 =
        like1 * (ent m.Pi 0 1 * m.mu0 + ent m.Pi 1 1 * m.mu1) /
          (like0 * (ent m.Pi 0 0 * m.mu0 + ent m.Pi 1 0 * m.mu1) +
           like1 * (ent m.Pi 0 1 * m.mu0 + ent m.Pi 1 1 * m.mu1) + eps12) := by
  intro m z like0 like1 h
  simp [IMMFilter.updateWith, h, IMMFilter.combineByMu]

/-- A concrete Ready IMM state for the claim C2 and C9 analyses: fresh
registry-shaped filter (deployed transition matrix), both models seeded
with the zero state and the covariance `diag 3`, measurement noise 1. -/
def immC2 : IMMFilter :=
  (IMMFilter.mk' 1 1 1 1 [[94/100, 6/100], [6/100, 94/100]]).initializeModels
    [[0], [0], [0], [0], [0], [0]]
    [[3, 0, 0, 0, 0, 0], [0, 3, 0, 0, 0, 0], [0, 0, 3, 0, 0, 0],
     [0, 0, 0, 3, 0, 0], [0, 0, 0, 0, 3, 0], [0, 0, 0, 0, 0, 3]]

/-- Counterexample to claim C2 as stated: at this Ready state with
measurement `(0,0)` both model likelihoods evaluate (exactly) to `1/4`,
and the resulting `mu[0]` is `Λ₀·c₀ / (ΣΛᵢcᵢ + 1e-12)`, which differs
from the claimed `Λ₀·c₀ / max(ΣΛᵢcᵢ, 1e-12)`. -/
theorem claim_C2_counterexample :
    IsLikelihoodOf (1/4) (innovOf immC2.model0 [[0], [0]])
      (innovCovOf immC2.model0 [[0], [0]]) ∧
    IsLikelihoodOf (1/4) (innovOf immC2.model1 [[0], [0]])
      (innovCovOf immC2.model1 [[0], [0]]) ∧
    (immC2.updateWith [[0], [0]] (1/4) (1/4)).mu0 ≠
      (1/4) * (ent immC2.Pi 0 0 * immC2.mu0 + ent immC2.Pi 1 0 * immC2.mu1) /
        max ((1/4) * (ent immC2.Pi 0 0 * immC2.mu0 + ent immC2.Pi 1 0 * immC2.mu1) +
             (1/4) * (ent immC2.Pi 0 1 * immC2.mu0 + ent immC2.Pi 1 1 * immC2.mu1))
          eps12 := by
  refine ⟨?_, ?_, ?_⟩
  · apply isLikelihoodOf_diag (s := 4)
    · with_unfolding_all decide
    · with_unfolding_all decide
    · with_unfolding_all decide
    · with_unfolding_all decide
    · with_unfolding_all decide
    · with_unfolding_all decide
    · norm_num
    · norm_num
  · apply isLikelihoodOf_diag (s := 4)
    · with_unfolding_all decide
    · with_unfolding_all decide
    · with_unfolding_all decide
    · with_unfolding_all decide
    · with_unfolding_all decide
    · with_unfolding_all decide
    · norm_num
    · norm_num
  · with_unfolding_all decide

/-- Witness for the amended claim C2 at the concrete Ready state. -/
theorem claim_C2_witness :
    immC2.initialized = true ∧
    (immC2.updateWith [[0], [0]] (1/4) (1/4)).mu0 =
      (1/4) * (ent immC2.Pi 0 0 * immC2.mu0 + ent immC2.Pi 1 0 * immC2.mu1) /
        ((1/4) * (ent immC2.Pi 0 0 * immC2.mu0 + ent immC2.Pi 1 0 * immC2.mu1) +
         (1/4) * (ent immC2.Pi 0 1 * immC2.mu0 + ent immC2.Pi 1 1 * immC2.mu1) +
         eps12) := by
  exact ⟨rfl,
    (claim_C2_amended_mu_update immC2 [[0], [0]] (1/4) (1/4) rfl).1⟩

/-- Claim C3 — corrected.  `predict` leaves `mu` unchanged, and after an
update `mu[0] + mu[1] = D / (D + 1e-12)` with `D = Λ₀·c₀ + Λ₁·c₁`; this
is within `1e-9` of `1` whenever `D ≥ 1e-3`, but not for all
configurations — small likelihoods (large measurement noise or large
innovations) push the sum far below `1`. -/
theorem claim_C3_amended_mu_sum :
    (∀ m : IMMFilter, m.predict.mu0 = m.mu0 ∧ m.predict.mu1 = m.mu1) ∧
    (∀ (m : IMMFilter) (z : Mat) (like0 like1 : ℚ), m.initialized = true →
      (m.updateWith z like0 like1).mu0 + (m.updateWith z like0 like1).mu1 =
        (like0 * (ent m.Pi 0 0 * m.mu0 + ent m.Pi 1 0 * m.mu1) +
         like1 * (ent m.Pi 0 1 * m.mu0 + ent m.Pi 1 1 * m.mu1)) /
        (like0 * (ent m.Pi 0 0 * m.mu0 + ent m.Pi 1 0 * m.mu1) +
         like1 * (ent m.Pi 0 1 * m.mu0 + ent m.Pi 1 1 * m.mu1) + eps12)) ∧
    (∀ D : ℚ, 1/1000 ≤ D → |D / (D + eps12) - 1| ≤ 1/10^9) := by
  refine ⟨?_, ?_, ?_⟩
  · intro m
    cases hm : m.initialized
    · simp [IMMFilter.predict, hm]
    · simp [IMMFilter.predict, hm, IMMFilter.combineByMu]
  · intro m z like0 like1 h
    simp only [IMMFilter.updateWith, h, if_true, IMMFilter.combineByMu]
    rw [div_add_div_same]
  · intro D hD
    have hD0 : (0 : ℚ) < D := lt_of_lt_of_le (by norm_num) hD
    have hDe : (0 : ℚ) < D + eps12 := by
      have : (0 : ℚ) < eps12 := by norm_num [eps12]
      linarith
    have hle : D / (D + eps12) ≤ 1 := by
      rw [div_le_one hDe]
      have : (0 : ℚ) < eps12 := by norm_num [eps12]
      linarith
    have heq : D / (D + eps12) - 1 = -(eps12 / (D + eps12)) := by
      field_simp
    rw [heq, abs_neg, abs_of_nonneg (div_nonneg (by norm_num [eps12]) hDe.le)]
    rw [div_le_iff₀ hDe]
    have h9 : (1 : ℚ)/10^9 * (D + eps12) ≥ 1/10^9 * (1/1000 + eps12) := by
      apply mul_le_mul_of_nonneg_left _ (by norm_num)
      linarith
    calc eps12 ≤ 1/10^9 * (1/1000 + eps12) := by norm_num [eps12]
      _ ≤ 1/10^9 * (D + eps12) := h9

/-- A concrete Ready IMM in the deployed configuration for the claim C3
counterexample: registry-shaped filter (`q = 1` giving slow/fast noise
`0.5`/`3`, deployed transition matrix), `dt = 0.05`, measurement noise
`50`, bootstrap covariance, zero initial state. -/
def immC3 : IMMFilter :=
  (IMMFilter.mk' (1/20) 50 (1/2) 3
      [[94/100, 6/100], [6/100, 94/100]]).initializeModels
    [[0], [0], [0], [0], [0], [0]] (buildInitialCovariance (50 * 50))

/-- The diagonal value of model 0's innovation covariance at the first
update tick of `immC3` (so `1/immC3s0` is its exact likelihood). -/
def immC3s0 : ℚ := ent (innovCovOf immC3.predict.model0 [[0], [0]]) 0 0

/-- The diagonal value of model 1's innovation covariance at the first
update tick of `immC3`. -/
def immC3s1 : ℚ := ent (innovCovOf immC3.predict.model1 [[0], [0]]) 0 0

/-- Counterexample to claim C3 as stated: in the deployed configuration
with measurement noise 50, after the first full tick (predict, then
update with the measurement `(0,0)` and the exact likelihood values the
formula yields there), `mu[0] + mu[1]` differs from `1` by more than
`1e-9`. -/
theorem claim_C3_counterexample :
    IsLikelihoodOf (1/immC3s0) (innovOf immC3.predict.model0 [[0], [0]])
      (innovCovOf immC3.predict.model0 [[0], [0]]) ∧
    IsLikelihoodOf (1/immC3s1) (innovOf immC3.predict.model1 [[0], [0]])
      (innovCovOf immC3.predict.model1 [[0], [0]]) ∧
    ¬ (|((immC3.predict.updateWith [[0], [0]] (1/immC3s0) (1/immC3s1)).mu0 +
         (immC3.predict.updateWith [[0], [0]] (1/immC3s0) (1/immC3s1)).mu1) - 1|
        ≤ 1/10^9) := by
  refine ⟨?_, ?_, ?_⟩
  · apply isLikelihoodOf_diag (s := immC3s0)
    · with_unfolding_all rfl
    · with_unfolding_all rfl
    · with_unfolding_all rfl
    · with_unfolding_all rfl
    · with_unfolding_all rfl
    · with_unfolding_all rfl
    · with_unfolding_all decide
    · with_unfolding_all decide
  · apply isLikelihoodOf_diag (s := immC3s1)
    · with_unfolding_all rfl
    · with_unfolding_all rfl
    · with_unfolding_all rfl
    · with_unfolding_all rfl
    · with_unfolding_all rfl
    · with_unfolding_all rfl
    · with_unfolding_all decide
    · with_unfolding_all decide
  · with_unfolding_all decide

/-- Witness for the amended claim C3: the update-step sum formula at the
concrete `immC3` tick and the `1e-9` closeness bound at `D = 1/2`. -/
theorem claim_C3_witness :
    immC3.predict.initialized = true ∧
    ((immC3.predict.updateWith [[0], [0]] (1/immC3s0) (1/immC3s1)).mu0 +
     (immC3.predict.updateWith [[0], [0]] (1/immC3s0) (1/immC3s1)).mu1 =
      ((1/immC3s0) * (ent immC3.predict.Pi 0 0 * immC3.predict.mu0 +
          ent immC3.predict.Pi 1 0 * immC3.predict.mu1) +
       (1/immC3s1) * (ent immC3.predict.Pi 0 1 * immC3.predict.mu0 +
          ent immC3.predict.Pi 1 1 * immC3.predict.mu1)) /
      ((1/immC3s0) * (ent immC3.predict.Pi 0 0 * immC3.predict.mu0 +
          ent immC3.predict.Pi 1 0 * immC3.predict.mu1) +
       (1/immC3s1) * (ent immC3.predict.Pi 0 1 * immC3.predict.mu0 +
          ent immC3.predict.Pi 1 1 * immC3.predict.mu1) + eps12)) ∧
    ((1 : ℚ)/1000 ≤ 1/2 ∧ |(1 : ℚ)/2 / (1/2 + eps12) - 1| ≤ 1/10^9) := by
  refine ⟨by with_unfolding_all decide, ?_, ?_⟩
  · exact (claim_C3_amended_mu_sum.2.1 immC3.predict [[0], [0]]
      (1/immC3s0) (1/immC3s1) (by with_unfolding_all decide))
  · exact ⟨by norm_num, claim_C3_amended_mu_sum.2.2 (1/2) (by norm_num)⟩

/-- Claim C1 — corrected.  At an initialized tick the coverage update is
guarded by `Number.isFinite(d2)`: when the position covariance has a
nonzero determinant the squared Mahalanobis distance is the finite exact
value `d2 = rᵀ·covPos⁻¹·r` and the counters behave as claimed (`total`
always increments, `hits` exactly when `d2 ≤ 5.991`); but when `d2` is
not finite (singular covariance) BOTH counters are skipped, so `total`
is not always incremented.  The snapshot exposes `hits/total` once
`total > 0` and `null` before. -/
theorem claim_C1_amended_coverage :
    (∀ (truth pos : ℚ × ℚ) (covPos : Mat) (hits total : ℕ),
      ent covPos 0 0 * ent covPos 1 1 - ent covPos 0 1 * ent covPos 1 0 ≠ 0 →
      coverageStep truth pos covPos hits total =
        (if (truth.1 - pos.1) *
              (ent (MatrixUtils.inverse2x2 covPos) 0 0 * (truth.1 - pos.1) +
               ent (MatrixUtils.inverse2x2 covPos) 0 1 * (truth.2 - pos.2)) +
            (truth.2 - pos.2) *
              (ent (MatrixUtils.inverse2x2 covPos) 1 0 * (truth.1 - pos.1) +
               ent (MatrixUtils.inverse2x2 covPos) 1 1 * (truth.2 - pos.2))
            ≤ chi95
         then hits + 1 else hits, total + 1)) ∧
    (∀ (st cov fullP inn gain innCov : Option Mat) (hadM inited : Bool)
       (bufLen needed hits total : ℕ),
      (mkSnapshot st cov fullP inn gain innCov hadM inited bufLen needed
          hits total).coveragePct =
        if 0 < total then some ((hits : ℚ) / total) else none) := by
  constructor
  · intro truth pos covPos hits total hdet
    have hinv : inverse2x2Js covPos =
        [[.fin (ent covPos 1 1 /
            (ent covPos 0 0 * ent covPos 1 1 - ent covPos 0 1 * ent covPos 1 0)),
          .fin (-(ent covPos 0 1) /
            (ent covPos 0 0 * ent covPos 1 1 - ent covPos 0 1 * ent covPos 1 0))],
         [.fin (-(ent covPos 1 0) /
            (ent covPos 0 0 * ent covPos 1 1 - ent covPos 0 1 * ent covPos 1 0)),
          .fin (ent covPos 0 0 /
            (ent covPos 0 0 * ent covPos 1 1 - ent covPos 0 1 * ent covPos 1 0))]] := by
      simp [inverse2x2Js, JsVal.jsDiv, hdet]
    simp only [coverageStep, hinv, entJs, List.getD_cons_zero,
      List.getD_cons_succ, JsVal.mul, JsVal.add, MatrixUtils.inverse2x2, ent]
  · intro st cov fullP inn gain innCov hadM inited bufLen needed hits total
    rfl

/-- Witness for the amended claim C1 at an invertible position
covariance: `total` and `hits` both increment (the residual `(1,0)` is
inside the `diag(2,2)` 95% ellipse). -/
theorem claim_C1_witness :
    (ent ([[2, 0], [0, 2]] : Mat) 0 0 * ent ([[2, 0], [0, 2]] : Mat) 1 1 -
      ent ([[2, 0], [0, 2]] : Mat) 0 1 * ent ([[2, 0], [0, 2]] : Mat) 1 0 ≠ 0) ∧
    coverageStep (1, 0) (0, 0) [[2, 0], [0, 2]] 0 0 = (1, 1) := by
  have hdet : ent ([[2, 0], [0, 2]] : Mat) 0 0 * ent ([[2, 0], [0, 2]] : Mat) 1 1 -
      ent ([[2, 0], [0, 2]] : Mat) 0 1 * ent ([[2, 0], [0, 2]] : Mat) 1 0 ≠ 0 := by
    with_unfolding_all decide
  refine ⟨hdet, ?_⟩
  rw [claim_C1_amended_coverage.1 (1, 0) (0, 0) [[2, 0], [0, 2]] 0 0 hdet]
  with_unfolding_all decide

/-- The claim C1 counterexample configuration: measurement noise `0`
(an allowed slider value), a stationary truth at `(1,2)`, a zero noise
stream, `dt = 1`, a measurement every tick, three ticks in all. -/
def cfgC1 : SimConfig :=
  { maxTime := 2, dt := 1, measurementRatio := 1, bootstrapMeasurements := 3,
    measurementNoise := 0, processNoise := 1 }

/-- The three-tick run of the claim C1 counterexample. -/
def runC1 : SimState :=
  simRun cfgC1 (fun _ => (1, 2)) (fun _ => (0, 0)) (tickCount cfgC1)

/-- The default used only to read `runC1`'s recorded snapshots. -/
def emptySnap : Snapshot :=
  mkSnapshot none none none none none none false false 0 0 0 0

/-- Counterexample to claim C1 as stated: with measurement noise `0` the
bootstrap completes at tick 2 and the update drives the position
covariance to exactly zero, so the tick-2 snapshot is initialized and
carries a position estimate and a position covariance, yet the coverage
accumulator's `total` stays `0` (the `Number.isFinite` guard skips the
singular-covariance tick) — `total` is NOT always incremented, and no
`hits/total` coverage is exposed. -/
theorem claim_C1_counterexample :
    tickCount cfgC1 = 3 ∧
    (runC1.snapshots.getD 2 emptySnap).initialized = true ∧
    (runC1.snapshots.getD 2 emptySnap).state.isSome = true ∧
    (runC1.snapshots.getD 2 emptySnap).covariance = some [[0, 0], [0, 0]] ∧
    (runC1.snapshots.getD 2 emptySnap).hadMeasurement = true ∧
    runC1.coverageTotal = 0 ∧
    runC1.coverageHits = 0 ∧
    (runC1.snapshots.getD 2 emptySnap).coveragePct = none := by
  refine ⟨by with_unfolding_all decide, by with_unfolding_all decide,
    by with_unfolding_all decide, by with_unfolding_all rfl,
    by with_unfolding_all decide, by with_unfolding_all decide,
    by with_unfolding_all decide, by with_unfolding_all rfl⟩

/-- Claim C7 — confirmed.  When a measurement brings the bootstrap
buffer to `bootstrapNeeded = 3` entries while the estimator is still
Uninitialized, the pipeline seeds it with the component-wise average of
the three buffered positions, zero velocity and acceleration, and the
covariance `diag(4r², 4r², 1000, 1000, 10000, 10000)`; a Ready
estimator is never re-seeded. -/
theorem claim_C7_bootstrap :
    ∀ (cfg : SimConfig) (f : KalmanFilter2D) (b1 b2 b3 : ℚ × (ℚ × ℚ)),
      cfg.bootstrapMeasurements = 3 → f.initialized = false →
      (bootstrapPhase cfg [b1, b2, b3] f =
        f.setInitialState
          [[(b1.2.1 + b2.2.1 + b3.2.1) / 3], [(b1.2.2 + b2.2.2 + b3.2.2) / 3],
           [0], [0], [0], [0]]
          [[cfg.measurementNoise * cfg.measurementNoise * 4, 0, 0, 0, 0, 0],
           [0, cfg.measurementNoise * cfg.measurementNoise * 4, 0, 0, 0, 0],
           [0, 0, 1000, 0, 0, 0],
           [0, 0, 0, 1000, 0, 0],
           [0, 0, 0, 0, 10000, 0],
           [0, 0, 0, 0, 0, 10000]]) ∧
      (bootstrapPhase cfg [b1, b2, b3] f).initialized = true ∧
      (∀ (buf : List (ℚ × (ℚ × ℚ))) (g : KalmanFilter2D),
        g.initialized = true → bootstrapPhase cfg buf g = g) := by
  intro cfg f b1 b2 b3 hneed huninit
  have hmain : bootstrapPhase cfg [b1, b2, b3] f =
      f.setInitialState
        [[(b1.2.1 + b2.2.1 + b3.2.1) / 3], [(b1.2.2 + b2.2.2 + b3.2.2) / 3],
         [0], [0], [0], [0]]
        [[cfg.measurementNoise * cfg.measurementNoise * 4, 0, 0, 0, 0, 0],
         [0, cfg.measurementNoise * cfg.measurementNoise * 4, 0, 0, 0, 0],
         [0, 0, 1000, 0, 0, 0],
         [0, 0, 0, 1000, 0, 0],
         [0, 0, 0, 0, 10000, 0],
         [0, 0, 0, 0, 0, 10000]] := by
    simp only [bootstrapPhase, huninit, hneed, Bool.false_eq_true,
      not_false_eq_true, List.length_cons, List.length_nil, true_and,
      if_true, Nat.reduceAdd, le_refl, if_pos]
    rfl
  refine ⟨hmain, ?_, ?_⟩
  · rw [hmain]; rfl
  · intro buf g hg
    simp [bootstrapPhase, hg]

/-- Witness for claim C7: three buffered measurements at positions
`(1,2)`, `(2,3)`, `(3,4)` seed the average `(2,3)` with zero velocity
and acceleration and the claimed diagonal covariance. -/
theorem claim_C7_witness :
    (SimConfig.bootstrapMeasurements { measurementNoise := 5 } = 3) ∧
    ((KalmanFilter2D.mk' 1 5 1).initialized = false) ∧
    bootstrapPhase { measurementNoise := 5 } [(0, (1, 2)), (1, (2, 3)), (2, (3, 4))]
        (KalmanFilter2D.mk' 1 5 1) =
      (KalmanFilter2D.mk' 1 5 1).setInitialState
        [[(1 + 2 + 3) / 3], [(2 + 3 + 4) / 3], [0], [0], [0], [0]]
        [[5 * 5 * 4, 0, 0, 0, 0, 0],
         [0, 5 * 5 * 4, 0, 0, 0, 0],
         [0, 0, 1000, 0, 0, 0],
         [0, 0, 0, 1000, 0, 0],
         [0, 0, 0, 0, 10000, 0],
         [0, 0, 0, 0, 0, 10000]] := by
  refine ⟨rfl, rfl, ?_⟩
  exact (claim_C7_bootstrap { measurementNoise := 5 } (KalmanFilter2D.mk' 1 5 1)
    (0, (1, 2)) (1, (2, 3)) (2, (3, 4)) rfl rfl).1


/-! ### Entry and shape toolkit for the list matrices (used by the
IMM-degeneracy analysis of claim C9) -/

/-- Reading an index-mapped list through `getElem?`. -/
theorem getElem?_mapIdxQ {α β : Type} (f : ℕ → α → β) (l : List α) (i : ℕ) :
    (mapIdxQ f l)[i]? = l[i]?.map (f i) := by
  rcases Nat.lt_or_ge i l.length with h | h
  · rw [mapIdxQ, List.getElem?_zipWith', List.getElem?_range h]
    simp
  · rw [mapIdxQ, List.getElem?_zipWith',
      List.getElem?_eq_none (l := List.range l.length) (by simpa using h),
      List.getElem?_eq_none h]
    simp

/-- `mapIdxQ` preserves length. -/
theorem length_mapIdxQ {α β : Type} (f : ℕ → α → β) (l : List α) :
    (mapIdxQ f l).length = l.length := by
  simp [mapIdxQ]

/-- Reading a mapped index range through `getD`. -/
theorem getD_range_map {β : Type} (n : ℕ) (f : ℕ → β) (i : ℕ) (d : β) :
    ((List.range n).map f).getD i d = if i < n then f i else d := by
  rcases Nat.lt_or_ge i n with h | h
  · rw [List.getD_eq_getElem _ _ (by simpa using h)]
    simp [h]
  · rw [List.getD_eq_default _ _ (by simpa using h)]
    simp [Nat.not_lt.mpr h]

/-- Reading `mapIdxQ` through `getD` with a default produced by the
map (row case). -/
theorem getD_mapIdxQ_of_lt {α β : Type} (f : ℕ → α → β) (l : List α)
    (i : ℕ) (d : β) (dl : α) (hi : i < l.length) :
    (mapIdxQ f l).getD i d = f i (l.getD i dl) := by
  rw [List.getD_eq_getElem?_getD, getElem?_mapIdxQ,
    List.getElem?_eq_getElem hi, List.getD_eq_getElem _ _ hi]
  rfl

/-- Reading `mapIdxQ` past the end. -/
theorem getD_mapIdxQ_of_ge {α β : Type} (f : ℕ → α → β) (l : List α)
    (i : ℕ) (d : β) (hi : l.length ≤ i) :
    (mapIdxQ f l).getD i d = d := by
  rw [List.getD_eq_default]
  rw [length_mapIdxQ]
  exact hi

/-- Entries past the last row are the `getD` default `0`. -/
theorem ent_of_len_le (A : Mat) (i j : ℕ) (h : A.length ≤ i) :
    ent A i j = 0 := by
  rw [ent, List.getD_eq_default _ _ h]
  rfl

/-- Entries past the end of a row are the `getD` default `0`. -/
theorem ent_of_rowlen_le (A : Mat) (i j : ℕ)
    (h : (A.getD i []).length ≤ j) : ent A i j = 0 :=
  List.getD_eq_default _ _ h

/-- Pointwise characterization of list-matrix equality: same row count,
same row lengths, same entries. -/
theorem mat_ext (A B : Mat) (hlen : A.length = B.length)
    (hrow : ∀ i, (A.getD i []).length = (B.getD i []).length)
    (hent : ∀ i j, ent A i j = ent B i j) : A = B := by
  apply List.ext_getElem hlen
  intro i hiA hiB
  apply List.ext_getElem
  · have h := hrow i
    rwa [List.getD_eq_getElem _ _ hiA, List.getD_eq_getElem _ _ hiB] at h
  · intro j hj1 hj2
    have h := hent i j
    rwa [ent, ent, List.getD_eq_getElem _ _ hiA, List.getD_eq_getElem _ _ hiB,
      List.getD_eq_getElem _ _ hj1, List.getD_eq_getElem _ _ hj2] at h

/-- `madd` keeps the first operand's row count. -/
theorem length_madd (A B : Mat) : (madd A B).length = A.length :=
  length_mapIdxQ _ _

/-- `madd` keeps the first operand's row lengths. -/
theorem rowlen_madd (A B : Mat) (i : ℕ) :
    ((madd A B).getD i []).length = (A.getD i []).length := by
  rcases Nat.lt_or_ge i A.length with h | h
  · rw [madd, getD_mapIdxQ_of_lt _ _ _ _ [] h, length_mapIdxQ]
  · rw [madd, getD_mapIdxQ_of_ge _ _ _ _ h, List.getD_eq_default _ _ h]

/-- Entry of `madd` inside the first operand's shape. -/
theorem ent_madd (A B : Mat) (i j : ℕ) (hi : i < A.length)
    (hj : j < (A.getD i []).length) :
    ent (madd A B) i j = ent A i j + ent B i j := by
  rw [ent, madd, getD_mapIdxQ_of_lt _ _ _ _ [] hi,
    getD_mapIdxQ_of_lt _ _ _ _ 0 hj]
  rfl

/-- Reading a mapped list through `getD` inside its length. -/
theorem getD_map_of_lt {α β : Type} (f : α → β) (l : List α) (i : ℕ)
    (d : β) (dl : α) (hi : i < l.length) :
    (l.map f).getD i d = f (l.getD i dl) := by
  rw [List.getD_eq_getElem _ _ (by simpa using hi),
    List.getD_eq_getElem _ _ hi, List.getElem_map]

/-- Entry of `mscale`, valid at every index. -/
theorem ent_mscale (A : Mat) (s : ℚ) (i j : ℕ) :
    ent (mscale A s) i j = ent A i j * s := by
  rcases Nat.lt_or_ge i A.length with hi | hi
  · rw [ent, ent, mscale, getD_map_of_lt _ _ _ _ [] hi]
    rcases Nat.lt_or_ge j ((A.getD i []).length) with hj | hj
    · rw [getD_map_of_lt _ _ _ _ 0 hj]
    · rw [List.getD_eq_default _ _ (by simpa using hj),
        List.getD_eq_default _ _ hj, zero_mul]
  · rw [ent_of_len_le _ _ _ (by simpa [mscale] using hi),
      ent_of_len_le _ _ _ hi, zero_mul]

/-- `mscale` by `1` is the identity. -/
theorem mscale_one (A : Mat) : mscale A 1 = A := by
  simp [mscale]

/-- `zeros66` reads as `0` everywhere. -/
theorem ent_zeros66 (i j : ℕ) : ent zeros66 i j = 0 := by
  rw [ent, zeros66, getD_range_map]
  rcases Nat.lt_or_ge i 6 with h | h
  · rw [if_pos h, getD_range_map]
    split <;> rfl
  · rw [if_neg (Nat.not_lt.mpr h)]
    rfl

/-- Row count of `zeros66`. -/
theorem length_zeros66 : zeros66.length = 6 := by simp [zeros66]

/-- Row lengths of `zeros66` inside its shape. -/
theorem rowlen_zeros66 (i : ℕ) (hi : i < 6) :
    (zeros66.getD i []).length = 6 := by
  rw [zeros66, getD_range_map, if_pos hi]
  simp

/-- A matrix whose entries all read `0` can be dropped from the right
of `madd`. -/
theorem madd_ent_zero_right (A B : Mat) (hB : ∀ i j, ent B i j = 0) :
    madd A B = A := by
  apply mat_ext
  · exact length_madd A B
  · exact rowlen_madd A B
  · intro i j
    rcases Nat.lt_or_ge i A.length with hi | hi
    · rcases Nat.lt_or_ge j ((A.getD i []).length) with hj | hj
      · rw [ent_madd A B i j hi hj, hB, add_zero]
      · rw [ent_of_rowlen_le _ _ _ (by rwa [rowlen_madd]),
          ent_of_rowlen_le _ _ _ hj]
    · rw [ent_of_len_le _ _ _ (by rwa [length_madd]),
        ent_of_len_le _ _ _ hi]

/-- Adding a 6 by 6-shaped matrix to `zeros66` returns it. -/
theorem madd_zeros66_left (B : Mat) (h6 : B.length = 6)
    (hrow : ∀ i, i < 6 → (B.getD i []).length = 6) :
    madd zeros66 B = B := by
  apply mat_ext
  · rw [length_madd, length_zeros66, h6]
  · intro i
    rw [rowlen_madd]
    rcases Nat.lt_or_ge i 6 with h | h
    · rw [rowlen_zeros66 i h, hrow i h]
    · rw [List.getD_eq_default _ _ (by rw [length_zeros66]; exact h),
        List.getD_eq_default _ _ (by rw [h6]; exact h)]
  · intro i j
    rcases Nat.lt_or_ge i 6 with hi | hi
    · rcases Nat.lt_or_ge j 6 with hj | hj
      · rw [ent_madd _ _ i j (by rw [length_zeros66]; exact hi)
          (by rw [rowlen_zeros66 i hi]; exact hj), ent_zeros66, zero_add]
      · rw [ent_of_rowlen_le _ _ _ (by rw [rowlen_madd, rowlen_zeros66 i hi]; exact hj),
          ent_of_rowlen_le _ _ _ (by rw [hrow i hi]; exact hj)]
    · rw [ent_of_len_le _ _ _ (by rw [length_madd, length_zeros66]; exact hi),
        ent_of_len_le _ _ _ (by rw [h6]; exact hi)]

/-- Entry of `outer` inside the 6 by 6 shape. -/
theorem ent_outer (d : Mat) (i j : ℕ) (hi : i < 6) (hj : j < 6) :
    ent (outer d) i j = ent d i 0 * ent d j 0 := by
  rw [ent, outer, getD_range_map, if_pos hi, getD_range_map, if_pos hj]

/-- Entry of `vsub` inside the first operand's shape (column `0`). -/
theorem ent_vsub (a b : Mat) (i : ℕ) (hi : i < a.length) :
    ent (vsub a b) i 0 = ent a i 0 - ent b i 0 := by
  rw [ent, vsub, getD_mapIdxQ_of_lt _ _ _ _ [] hi]
  rfl

/-- `vsub` of a matrix against itself reads `0` in column `0`. -/
theorem ent_vsub_self (a : Mat) (i : ℕ) : ent (vsub a a) i 0 = 0 := by
  rcases Nat.lt_or_ge i a.length with hi | hi
  · rw [ent_vsub a a i hi, sub_self]
  · exact ent_of_len_le _ _ _ (by rwa [vsub, length_mapIdxQ])

/-- The outer product of a column that reads `0` is `zeros66`. -/
theorem outer_ent_zero (d : Mat) (hd : ∀ i, ent d i 0 = 0) :
    outer d = zeros66 := by
  rw [outer, zeros66]
  apply List.map_congr_left
  intro i _
  apply List.map_congr_left
  intro j _
  rw [hd i, hd j, zero_mul]

/-- Row count of `mixVec`. -/
theorem length_mixVec (x0 x1 : Mat) (w0 w1 : ℚ) :
    (mixVec x0 x1 w0 w1).length = 6 := by simp [mixVec]

/-- Rows of `mixVec` through `getD`. -/
theorem getD_mixVec (x0 x1 : Mat) (w0 w1 : ℚ) (r : ℕ) :
    (mixVec x0 x1 w0 w1).getD r [] =
      if r < 6 then [0 + ent x0 r 0 * w0 + ent x1 r 0 * w1] else [] := by
  rw [mixVec, getD_range_map]

/-- Entry of `mixVec` inside its shape. -/
theorem ent_mixVec (x0 x1 : Mat) (w0 w1 : ℚ) (r : ℕ) (hr : r < 6) :
    ent (mixVec x0 x1 w0 w1) r 0 =
      0 + ent x0 r 0 * w0 + ent x1 r 0 * w1 := by
  rw [ent, getD_mixVec, if_pos hr]
  rfl

/-- Mixing with weights `1` and `0` returns the first state unchanged. -/
theorem mixVec_one_zero (x y : Mat) (h6 : x.length = 6)
    (h1 : ∀ i, i < 6 → (x.getD i []).length = 1) :
    mixVec x y 1 0 = x := by
  apply mat_ext
  · rw [length_mixVec, h6]
  · intro i
    rw [getD_mixVec]
    rcases Nat.lt_or_ge i 6 with h | h
    · rw [if_pos h, h1 i h]
      rfl
    · rw [if_neg (Nat.not_lt.mpr h),
        List.getD_eq_default _ _ (by rw [h6]; exact h)]
  · intro i j
    rcases Nat.lt_or_ge i 6 with hi | hi
    · match j with
      | 0 =>
          rw [ent_mixVec x y 1 0 i hi, mul_one, mul_zero, add_zero, zero_add]
      | j + 1 =>
          rw [ent_of_rowlen_le _ _ _ (by rw [getD_mixVec, if_pos hi]; simp),
            ent_of_rowlen_le _ _ _ (by rw [h1 i hi]; omega)]
    · rw [ent_of_len_le _ _ _ (by rw [length_mixVec]; exact hi),
        ent_of_len_le _ _ _ (by rw [h6]; exact hi)]

/-- Covariance mixing with weights `1` and `0` against the unchanged
mixed state returns the first covariance unchanged. -/
theorem mixCov_one_zero (P0 P1 x0 x1 : Mat)
    (hP6 : P0.length = 6) (hProw : ∀ i, i < 6 → (P0.getD i []).length = 6) :
    mixCov P0 P1 x0 x1 x0 1 0 = P0 := by
  rw [mixCov]
  rw [outer_ent_zero (vsub x0 x0) (ent_vsub_self x0)]
  rw [madd_ent_zero_right P0 zeros66 ent_zeros66, mscale_one]
  rw [madd_zeros66_left P0 hP6 hProw]
  apply madd_ent_zero_right
  intro i j
  rw [ent_mscale, mul_zero]

/-- Entry of `mixCov` with second weight `0`, inside the shape of the
first covariance. -/
theorem ent_mixCov_w1_zero (P0 P1 x0 x1 xmix : Mat) (w0 : ℚ) (i j : ℕ)
    (hi : i < 6) (hj : j < 6)
    (hP6 : P0.length = 6) (hProw : ∀ k, k < 6 → (P0.getD k []).length = 6)
    (hx6 : x0.length = 6) :
    ent (mixCov P0 P1 x0 x1 xmix w0 0) i j =
      (ent P0 i j + (ent x0 i 0 - ent xmix i 0) * (ent x0 j 0 - ent xmix j 0))
        * w0 := by
  rw [mixCov]
  have hL6 : (madd zeros66 (mscale (madd P0 (outer (vsub x0 xmix))) w0)).length = 6 := by
    rw [length_madd, length_zeros66]
  have hLrow : ((madd zeros66 (mscale (madd P0 (outer (vsub x0 xmix))) w0)).getD i []).length = 6 := by
    rw [rowlen_madd, rowlen_zeros66 i hi]
  rw [ent_madd _ _ i j (by rw [hL6]; exact hi) (by rw [hLrow]; exact hj)]
  rw [ent_mscale, mul_zero, add_zero]
  rw [ent_madd _ _ i j (by rw [length_zeros66]; exact hi)
    (by rw [rowlen_zeros66 i hi]; exact hj), ent_zeros66, zero_add]
  rw [ent_mscale]
  rw [ent_madd _ _ i j (by rw [hP6]; exact hi) (by rw [hProw i hi]; exact hj)]
  rw [ent_outer _ i j hi hj]
  rw [ent_vsub x0 xmix i (by rw [hx6]; exact hi),
    ent_vsub x0 xmix j (by rw [hx6]; exact hj)]

/-- `headD` is `getD` at index `0`. -/
theorem headD_eq_getD_zero {α : Type} (l : List α) (d : α) :
    l.headD d = l.getD 0 d := by
  cases l <;> rfl

/-- `multiply` has one output row per row of `A`. -/
theorem length_multiply (A B : Mat) :
    (MatrixUtils.multiply A B).length = A.length := by
  simp [MatrixUtils.multiply]

/-- Every in-range output row of `multiply` has the width of `B`'s
first row. -/
theorem rowlen_multiply (A B : Mat) (i : ℕ) (hi : i < A.length) :
    ((MatrixUtils.multiply A B).getD i []).length = (B.headD []).length := by
  simp only [MatrixUtils.multiply]
  rw [getD_map_of_lt _ _ _ _ [] hi]
  simp

/-- `MatrixUtils.add` and the IMM accumulator `madd` are the same
operation. -/
theorem add_eq_madd : MatrixUtils.add = madd := rfl

/-- `add` keeps the first operand's row count. -/
theorem length_add (A B : Mat) : (MatrixUtils.add A B).length = A.length := by
  rw [add_eq_madd]; exact length_madd A B

/-- `add` keeps the first operand's row lengths. -/
theorem rowlen_add (A B : Mat) (i : ℕ) :
    ((MatrixUtils.add A B).getD i []).length = (A.getD i []).length := by
  rw [add_eq_madd]; exact rowlen_madd A B i

/-- `subtract` keeps the first operand's row count. -/
theorem length_subtract (A B : Mat) :
    (MatrixUtils.subtract A B).length = A.length :=
  length_mapIdxQ _ _

/-- Row count of `identity`. -/
theorem length_identity (n : ℕ) : (MatrixUtils.identity n).length = n := by
  simp [MatrixUtils.identity]

/-- The first row of the transposed state-transition matrix has the
full state width. -/
theorem rowlen_transpose_F (dt : ℚ) :
    ((MatrixUtils.transpose (Fmat dt)).headD []).length = 6 := rfl

/-- The record form of `predict` on an initialized filter carrying a
state and a covariance. -/
theorem kf_predict_eq (f : KalmanFilter2D) (hi : f.initialized = true)
    (hs : f.state.isSome = true) (hc : f.covariance.isSome = true) :
    f.predict = { f with
      state := some (MatrixUtils.multiply f.F f.stateD)
      covariance := some (MatrixUtils.add (MatrixUtils.multiply
        (MatrixUtils.multiply f.F f.covD) (MatrixUtils.transpose f.F)) f.Q)
      lastInnovation := none
      lastKalmanGain := none
      lastInnovationCovariance := none } := by
  obtain ⟨x, hx⟩ := Option.isSome_iff_exists.mp hs
  obtain ⟨P, hP⟩ := Option.isSome_iff_exists.mp hc
  simp [KalmanFilter2D.predict, KalmanFilter2D.stateD, KalmanFilter2D.covD,
    hx, hP, hi]

/-- The record form of `update` on an initialized filter carrying a
state and a covariance. -/
theorem kf_update_eq (f : KalmanFilter2D) (z : Mat)
    (hi : f.initialized = true)
    (hs : f.state.isSome = true) (hc : f.covariance.isSome = true) :
    f.update z =
      (let y := MatrixUtils.subtract z (MatrixUtils.multiply f.H f.stateD)
       let S := MatrixUtils.add
         (MatrixUtils.multiply (MatrixUtils.multiply f.H f.covD)
           (MatrixUtils.transpose f.H)) f.R
       let K := MatrixUtils.multiply
         (MatrixUtils.multiply f.covD (MatrixUtils.transpose f.H))
         (MatrixUtils.inverse2x2 S)
       { f with
           lastInnovation := some y
           lastInnovationCovariance := some S
           lastKalmanGain := some K
           state := some (MatrixUtils.add f.stateD (MatrixUtils.multiply K y))
           covariance := some (MatrixUtils.multiply
             (MatrixUtils.subtract (MatrixUtils.identity 6)
               (MatrixUtils.multiply K f.H)) f.covD) }) := by
  obtain ⟨x, hx⟩ := Option.isSome_iff_exists.mp hs
  obtain ⟨P, hP⟩ := Option.isSome_iff_exists.mp hc
  simp [KalmanFilter2D.update, KalmanFilter2D.stateD, KalmanFilter2D.covD,
    hx, hP, hi]

/-- The shape the IMM maintains on a model filter: initialized, state
and covariance present, a 6-row column state, a 6 by 6 covariance, and
the system matrices tied to `dt`. -/
def KFShape (f : KalmanFilter2D) : Prop :=
  f.initialized = true ∧ f.state.isSome = true ∧ f.covariance.isSome = true ∧
  f.stateD.length = 6 ∧ (∀ i, i < 6 → (f.stateD.getD i []).length = 1) ∧
  f.covD.length = 6 ∧ (∀ i, i < 6 → (f.covD.getD i []).length = 6) ∧
  f.F = Fmat f.dt ∧ f.H = Hmat

/-- `predict` preserves the model shape. -/
theorem KFShape_predict {f : KalmanFilter2D} (h : KFShape f) :
    KFShape f.predict := by
  obtain ⟨hi, hs, hc, hx6, hx1, hP6, hProw, hF, hH⟩ := h
  rw [kf_predict_eq f hi hs hc]
  have hF6 : f.F.length = 6 := by rw [hF]; rfl
  refine ⟨hi, rfl, rfl, ?_, ?_, ?_, ?_, hF, hH⟩
  · show (MatrixUtils.multiply f.F f.stateD).length = 6
    rw [length_multiply, hF6]
  · intro i hi6
    show ((MatrixUtils.multiply f.F f.stateD).getD i []).length = 1
    rw [rowlen_multiply _ _ i (by rw [hF6]; exact hi6),
      headD_eq_getD_zero]
    exact hx1 0 (by norm_num)
  · show (MatrixUtils.add _ _).length = 6
    rw [length_add, length_multiply, length_multiply, hF6]
  · intro i hi6
    show ((MatrixUtils.add _ _).getD i []).length = 6
    rw [rowlen_add,
      rowlen_multiply _ _ i (by rw [length_multiply, hF6]; exact hi6),
      hF, rowlen_transpose_F]

/-- `update` preserves the model shape. -/
theorem KFShape_update {f : KalmanFilter2D} (z : Mat) (h : KFShape f) :
    KFShape (f.update z) := by
  obtain ⟨hi, hs, hc, hx6, hx1, hP6, hProw, hF, hH⟩ := h
  rw [kf_update_eq f z hi hs hc]
  refine ⟨hi, rfl, rfl, ?_, ?_, ?_, ?_, hF, hH⟩
  · show (MatrixUtils.add f.stateD _).length = 6
    rw [length_add, hx6]
  · intro i hi6
    show ((MatrixUtils.add f.stateD _).getD i []).length = 1
    rw [rowlen_add]
    exact hx1 i hi6
  · show (MatrixUtils.multiply _ f.covD).length = 6
    rw [length_multiply, length_subtract, length_identity]
  · intro i hi6
    show ((MatrixUtils.multiply _ f.covD).getD i []).length = 6
    rw [rowlen_multiply _ _ i
        (by rw [length_subtract, length_identity]; exact hi6),
      headD_eq_getD_zero]
    exact hProw 0 (by norm_num)

/-- Re-wrapping a filter's own state and covariance is the identity. -/
theorem kf_with_same (f : KalmanFilter2D)
    (hs : f.state.isSome = true) (hc : f.covariance.isSome = true) :
    ({ f with state := some f.stateD, covariance := some f.covD }
      : KalmanFilter2D) = f := by
  obtain ⟨x, hx⟩ := Option.isSome_iff_exists.mp hs
  obtain ⟨P, hP⟩ := Option.isSome_iff_exists.mp hc
  have h1 : some f.stateD = f.state := by
    simp [KalmanFilter2D.stateD, hx]
  have h2 : some f.covD = f.covariance := by
    simp [KalmanFilter2D.covD, hP]
  rw [h1, h2]

/-- The degenerate-IMM coupling invariant: the transition matrix is the
2 by 2 identity, all probability mass (at least `1e-12` of it) sits on
model 0, and model 0 is exactly the standalone filter, which carries
the 6-state shape. -/
def DegInv (m : IMMFilter) (f : KalmanFilter2D) : Prop :=
  m.Pi = MatrixUtils.identity 2 ∧ m.mu1 = 0 ∧ eps12 ≤ m.mu0 ∧
  m.initialized = true ∧ m.model0 = f ∧ KFShape f

/-- The combined IMM outputs as scaled standalone outputs: every state
entry is the standalone entry times `mu0`, and every covariance entry
is `mu0` times the standalone entry plus the `mu0·(1−mu0)²`
spread-of-means term. -/
def ScaledOut (m : IMMFilter) (f : KalmanFilter2D) : Prop :=
  (∀ i, i < 6 → ent (m.state.getD []) i 0 = ent f.stateD i 0 * m.mu0) ∧
  (∀ i j, i < 6 → j < 6 →
    ent (m.covariance.getD []) i j =
      (ent f.covD i j +
        ent f.stateD i 0 * (1 - m.mu0) * (ent f.stateD j 0 * (1 - m.mu0)))
        * m.mu0)

/-- `combineByMu` writes the probability-mixed state. -/
theorem combineByMu_state (m : IMMFilter) :
    (m.combineByMu).state =
      some (mixVec m.model0.stateD m.model1.stateD m.mu0 m.mu1) := rfl

/-- `combineByMu` writes the probability-mixed covariance. -/
theorem combineByMu_cov (m : IMMFilter) :
    (m.combineByMu).covariance =
      some (mixCov m.model0.covD m.model1.covD m.model0.stateD
        m.model1.stateD
        (mixVec m.model0.stateD m.model1.stateD m.mu0 m.mu1)
        m.mu0 m.mu1) := rfl

/-- `combineByMu` leaves `mu0` unchanged. -/
theorem combineByMu_mu0 (m : IMMFilter) : (m.combineByMu).mu0 = m.mu0 := rfl

/-- `combineByMu` leaves `mu1` unchanged. -/
theorem combineByMu_mu1 (m : IMMFilter) : (m.combineByMu).mu1 = m.mu1 := rfl

/-- With all mass on model 0, combining produces the scaled outputs. -/
theorem scaledOut_combine (m : IMMFilter) (g : KalmanFilter2D)
    (hmu1 : m.mu1 = 0) (hm0 : m.model0 = g) (hg : KFShape g) :
    ScaledOut m.combineByMu g := by
  obtain ⟨_, _, _, hx6, hx1, hP6, hProw, _, _⟩ := hg
  constructor
  · intro i hi6
    simp only [combineByMu_state, combineByMu_mu0, Option.getD_some]
    rw [hm0, hmu1, ent_mixVec _ _ _ _ i hi6]
    ring
  · intro i j hi6 hj6
    simp only [combineByMu_cov, combineByMu_mu0, Option.getD_some]
    rw [hm0, hmu1]
    rw [ent_mixCov_w1_zero _ _ _ _ _ _ i j hi6 hj6 hP6 hProw hx6]
    rw [ent_mixVec _ _ _ _ i hi6, ent_mixVec _ _ _ _ j hj6]
    ring

/-- The updated model-0 probability stays at or above the `1e-12`
floor whenever the likelihood is at least `1e-3`. -/
theorem mu0_update_lower (mu0 l0 : ℚ) (hmu : eps12 ≤ mu0)
    (hl0 : 1/1000 ≤ l0) :
    eps12 ≤ l0 * mu0 / (l0 * mu0 + eps12) := by
  have heps : eps12 = 1/10^12 := by norm_num [eps12]
  have hmu0pos : 0 < mu0 := lt_of_lt_of_le (by rw [heps]; norm_num) hmu
  have hl0pos : 0 < l0 := lt_of_lt_of_le (by norm_num) hl0
  have ht : 1/10^15 ≤ l0 * mu0 := by
    calc (1:ℚ)/10^15 = (1/1000) * (1/10^12) := by norm_num
    _ ≤ l0 * mu0 := by
        apply mul_le_mul hl0 (by rw [heps] at hmu; exact hmu)
          (by norm_num) hl0pos.le
  have hd : 0 < l0 * mu0 + eps12 := by
    have heps_pos : (0:ℚ) < eps12 := by rw [heps]; norm_num
    nlinarith [mul_pos hl0pos hmu0pos]
  rw [le_div_iff₀ hd, heps] at *
  linarith [ht]

/-- One predict step preserves the degeneracy invariant, leaves `mu0`
unchanged, and emits the `mu0`-scaled combined outputs. -/
theorem imm_predict_deg (m : IMMFilter) (f : KalmanFilter2D)
    (h : DegInv m f) :
    DegInv m.predict f.predict ∧ m.predict.mu0 = m.mu0 ∧
      ScaledOut m.predict f.predict := by
  obtain ⟨hPi, hmu1, hmu0, hinit, hm0, hshape⟩ := h
  obtain ⟨hfi, hfs, hfc, hx6, hx1, hP6, hProw, hF, hH⟩ := hshape
  have hPi00 : ent m.Pi 0 0 = 1 := by rw [hPi]; rfl
  have hPi01 : ent m.Pi 0 1 = 0 := by rw [hPi]; rfl
  have hPi10 : ent m.Pi 1 0 = 0 := by rw [hPi]; rfl
  have hPi11 : ent m.Pi 1 1 = 1 := by rw [hPi]; rfl
  have hmu0pos : 0 < m.mu0 :=
    lt_of_lt_of_le (by norm_num [eps12]) hmu0
  have hw00 : ent m.Pi 0 0 * m.mu0 /
      max (ent m.Pi 0 0 * m.mu0 + ent m.Pi 1 0 * m.mu1) eps12 = 1 := by
    rw [hPi00, hPi10, hmu1, one_mul, mul_zero, add_zero,
      max_eq_left hmu0, div_self hmu0pos.ne.symm]
  have hw10 : ent m.Pi 1 0 * m.mu1 /
      max (ent m.Pi 0 0 * m.mu0 + ent m.Pi 1 0 * m.mu1) eps12 = 0 := by
    rw [hPi10, hmu1, mul_zero, zero_div]
  have hw01 : ent m.Pi 0 1 * m.mu0 /
      max (ent m.Pi 0 1 * m.mu0 + ent m.Pi 1 1 * m.mu1) eps12 = 0 := by
    rw [hPi01, zero_mul, zero_div]
  have hw11 : ent m.Pi 1 1 * m.mu1 /
      max (ent m.Pi 0 1 * m.mu0 + ent m.Pi 1 1 * m.mu1) eps12 = 0 := by
    rw [hmu1, mul_zero, zero_div]
  have key : ∃ g1, m.predict =
      IMMFilter.combineByMu
        { m with model0 := f.predict, model1 := g1 } := by
    simp only [IMMFilter.predict, hinit, if_true]
    rw [hw00, hw10, hw01, hw11, hm0]
    rw [mixVec_one_zero f.stateD m.model1.stateD hx6 hx1]
    rw [mixCov_one_zero f.covD m.model1.covD f.stateD m.model1.stateD
      hP6 hProw]
    rw [kf_with_same f hfs hfc]
    exact ⟨_, rfl⟩
  obtain ⟨g1, hkey⟩ := key
  have hshape' : KFShape f.predict :=
    KFShape_predict ⟨hfi, hfs, hfc, hx6, hx1, hP6, hProw, hF, hH⟩
  rw [hkey]
  refine ⟨⟨hPi, hmu1, hmu0, hinit, rfl, hshape'⟩, rfl, ?_⟩
  exact scaledOut_combine _ f.predict hmu1 rfl hshape'

/-- One update step with a likelihood of at least `1e-3` on model 0
preserves the degeneracy invariant and emits the `mu0`-scaled combined
outputs; the new `mu0` is strictly below 1 because `1e-12` is added to
the normalizer. -/
theorem imm_update_deg (m : IMMFilter) (f : KalmanFilter2D) (z : Mat)
    (l0 l1 : ℚ) (h : DegInv m f) (hl0 : 1/1000 ≤ l0) :
    DegInv (m.updateWith z l0 l1) (f.update z) ∧
      (m.updateWith z l0 l1).mu0 = l0 * m.mu0 / (l0 * m.mu0 + eps12) ∧
      ScaledOut (m.updateWith z l0 l1) (f.update z) := by
  obtain ⟨hPi, hmu1, hmu0, hinit, hm0, hshape⟩ := h
  have hPi00 : ent m.Pi 0 0 = 1 := by rw [hPi]; rfl
  have hPi01 : ent m.Pi 0 1 = 0 := by rw [hPi]; rfl
  have hPi10 : ent m.Pi 1 0 = 0 := by rw [hPi]; rfl
  have hPi11 : ent m.Pi 1 1 = 1 := by rw [hPi]; rfl
  have hmu0pos : 0 < m.mu0 :=
    lt_of_lt_of_le (by norm_num [eps12]) hmu0
  have hl0pos : 0 < l0 := lt_of_lt_of_le (by norm_num) hl0
  have h0 : ent m.Pi 0 0 * m.mu0 + ent m.Pi 1 0 * m.mu1 = m.mu0 := by
    rw [hPi00, hPi10, hmu1]; ring
  have h1 : ent m.Pi 0 1 * m.mu0 + ent m.Pi 1 1 * m.mu1 = 0 := by
    rw [hPi01, hPi11, hmu1]; ring
  have hnorm : l0 * m.mu0 + l1 * 0 + eps12 = l0 * m.mu0 + eps12 := by
    ring
  have h2 : l1 * 0 / (l0 * m.mu0 + eps12) = 0 := by
    rw [mul_zero, zero_div]
  have hcond : (0:ℚ) ≤ l0 * m.mu0 / (l0 * m.mu0 + eps12) := by
    apply div_nonneg (mul_nonneg hl0pos.le hmu0pos.le)
    have : (0:ℚ) ≤ eps12 := by norm_num [eps12]
    nlinarith [mul_nonneg hl0pos.le hmu0pos.le]
  have key : m.updateWith z l0 l1 =
      IMMFilter.combineByMu
        { m with
            model0 := f.update z
            model1 := m.model1.update z
            mu0 := l0 * m.mu0 / (l0 * m.mu0 + eps12)
            mu1 := 0
            lastInnovation := (f.update z).lastInnovation
            lastInnovationCovariance := (f.update z).lastInnovationCovariance
            lastKalmanGain := (f.update z).lastKalmanGain } := by
    simp only [IMMFilter.updateWith, hinit, if_true]
    rw [h0, h1, hnorm, h2]
    rw [if_pos hcond]
    rw [hm0]
  obtain ⟨hfi, hfs, hfc, hx6, hx1, hP6, hProw, hF, hH⟩ := hshape
  have hshape' : KFShape (f.update z) :=
    KFShape_update z ⟨hfi, hfs, hfc, hx6, hx1, hP6, hProw, hF, hH⟩
  have hmu0' : eps12 ≤ l0 * m.mu0 / (l0 * m.mu0 + eps12) :=
    mu0_update_lower m.mu0 l0 hmu0 hl0
  rw [key]
  refine ⟨⟨hPi, rfl, hmu0', hinit, rfl, hshape'⟩, rfl, ?_⟩
  exact scaledOut_combine _ (f.update z) rfl rfl hshape'

/-- Claim C9 — corrected.  With `Pi` the 2 by 2 identity and all
probability mass on model 0, driving the IMM and a standalone
KalmanFilter2D with model-0 parameters through the same
predict/update sequence (every update likelihood at least `1e-3`)
keeps the degeneracy invariant: model 0 of the IMM IS the standalone
filter, exactly, tick for tick.  The COMBINED outputs, however, are
not the standalone outputs: after every tick each combined state
entry is the standalone entry scaled by `mu0`, and each combined
covariance entry is `mu0` times the standalone entry plus the
`mu0·(1−mu0)²` spread-of-means term — equal to the standalone values
only in the limit `mu0 = 1`, which the `+1e-12` in the probability
normalizer prevents after any update. -/
theorem claim_C9_amended (m : IMMFilter) (f : KalmanFilter2D)
    (evs : List Ev) (hinv : DegInv m f)
    (hl : ∀ z l0 l1, Ev.upd z l0 l1 ∈ evs → 1/1000 ≤ l0) :
    DegInv (runIMM m evs) (runKF f evs) ∧
      (evs ≠ [] → ScaledOut (runIMM m evs) (runKF f evs)) := by
  induction evs generalizing m f with
  | nil => exact ⟨hinv, fun hne => absurd rfl hne⟩
  | cons e es ih =>
      cases e with
      | pred =>
          have hstep := imm_predict_deg m f hinv
          have hl' : ∀ z l0 l1, Ev.upd z l0 l1 ∈ es → 1/1000 ≤ l0 :=
            fun z l0 l1 hm => hl z l0 l1 (List.mem_cons_of_mem _ hm)
          have ih' := ih m.predict f.predict hstep.1 hl'
          refine ⟨ih'.1, fun _ => ?_⟩
          cases es with
          | nil => exact hstep.2.2
          | cons e2 es2 => exact ih'.2 (by simp)
      | upd z l0 l1 =>
          have hl0 : 1/1000 ≤ l0 :=
            hl z l0 l1 (List.mem_cons_self _ _)
          have hstep := imm_update_deg m f z l0 l1 hinv hl0
          have hl' : ∀ z' l0' l1', Ev.upd z' l0' l1' ∈ es → 1/1000 ≤ l0' :=
            fun z' l0' l1' hm => hl z' l0' l1' (List.mem_cons_of_mem _ hm)
          have ih' := ih (m.updateWith z l0 l1) (f.update z) hstep.1 hl'
          refine ⟨ih'.1, fun _ => ?_⟩
          cases es with
          | nil => exact hstep.2.2
          | cons e2 es2 => exact ih'.2 (by simp)

/-- A concrete degenerate IMM: identity transition matrix, all mass on
model 0, both models seeded at the origin with the bootstrap
covariance. -/
def immW : IMMFilter :=
  { (IMMFilter.mk' 1 1 (1/2) 3 [[1,0],[0,1]]).initializeModels
      [[0],[0],[0],[0],[0],[0]] (buildInitialCovariance 1)
    with mu0 := 1, mu1 := 0 }

/-- The standalone filter with `immW`'s model-0 parameters. -/
def kfW : KalmanFilter2D := immW.model0

theorem claim_C9_witness :
    DegInv immW kfW ∧
      DegInv (runIMM immW [Ev.pred]) (runKF kfW [Ev.pred]) ∧
      ScaledOut (runIMM immW [Ev.pred]) (runKF kfW [Ev.pred]) := by
  have hdeg : DegInv immW kfW :=
    ⟨rfl, rfl, by norm_num [eps12, immW], rfl, rfl,
      rfl, rfl, rfl, rfl, by decide, rfl, by decide, rfl, rfl⟩
  have hlik : ∀ z l0 l1, Ev.upd z l0 l1 ∈ [Ev.pred] → (1:ℚ)/1000 ≤ l0 := by
    intro z l0 l1 hm
    simp at hm
  have hmain := claim_C9_amended immW kfW [Ev.pred] hdeg hlik
  exact ⟨hdeg, hmain.1, hmain.2 (List.cons_ne_nil _ _)⟩

/-- The counterexample IMM for the original claim C9: identity
transition matrix, `mu = [1, 0]`, `dt = 1`, measurement noise `1e6`,
process noise `1/2` and `3`, both models seeded at the origin with the
bootstrap covariance for measurement variance `1e12`. -/
def immC9 : IMMFilter :=
  { (IMMFilter.mk' 1 (10^6) (1/2) 3 [[1,0],[0,1]]).initializeModels
      [[0],[0],[0],[0],[0],[0]] (buildInitialCovariance (10^12))
    with mu0 := 1, mu1 := 0 }

/-- The standalone filter with `immC9`'s model-0 parameters. -/
def kfC9 : KalmanFilter2D := immC9.model0

/-- The IMM after its first predict (whose per-model update caches the
likelihood inputs). -/
def immC9p : IMMFilter := immC9.predict

/-- Model 0's innovation-covariance diagonal at the first update. -/
def s0C9 : ℚ := ent (innovCovOf immC9p.model0 [[0],[0]]) 0 0

/-- Model 1's innovation-covariance diagonal at the first update. -/
def s1C9 : ℚ := ent (innovCovOf immC9p.model1 [[0],[0]]) 0 0

/-- The driven sequence: one predict, then one update at the origin
with each model's exact likelihood value. -/
def evsC9 : List Ev := [Ev.pred, Ev.upd [[0],[0]] (1/s0C9) (1/s1C9)]

theorem claim_C9_counterexample :
    immC9.Pi = MatrixUtils.identity 2 ∧ immC9.mu0 = 1 ∧ immC9.mu1 = 0 ∧
    kfC9 = immC9.model0 ∧
    IsLikelihoodOf (1/s0C9) (innovOf immC9p.model0 [[0],[0]])
      (innovCovOf immC9p.model0 [[0],[0]]) ∧
    IsLikelihoodOf (1/s1C9) (innovOf immC9p.model1 [[0],[0]])
      (innovCovOf immC9p.model1 [[0],[0]]) ∧
    (runIMM immC9 evsC9).model0 = runKF kfC9 evsC9 ∧
    ¬ |ent ((runIMM immC9 evsC9).covariance.getD []) 2 2 -
        ent (runKF kfC9 evsC9).covD 2 2| ≤ 1/10^6 := by
  refine ⟨rfl, rfl, rfl, rfl, ?_, ?_, ?_, ?_⟩
  · exact isLikelihoodOf_diag _ _ s0C9
      (by with_unfolding_all rfl) (by with_unfolding_all rfl)
      rfl (by with_unfolding_all rfl)
      (by with_unfolding_all rfl) (by with_unfolding_all rfl)
      (by with_unfolding_all decide) (by with_unfolding_all decide)
  · exact isLikelihoodOf_diag _ _ s1C9
      (by with_unfolding_all rfl) (by with_unfolding_all rfl)
      rfl (by with_unfolding_all rfl)
      (by with_unfolding_all rfl) (by with_unfolding_all rfl)
      (by with_unfolding_all decide) (by with_unfolding_all decide)
  · with_unfolding_all rfl
  · with_unfolding_all decide

end KalmanSpec
